import Mathlib

/-!
# umdk-counter: pulse counter module

A shallow embedding of `unwired-modules/umdk-counter/umdk-counter.c` and the
properties of its telemetry codec, debounce engine, publish scheduler and
command handler.

Machine integers are natural numbers with explicit reduction modulo the width
of the C type.  The module's global variables and the state of the hardware
and kernel services it drives are gathered in one `State` record; every C
function becomes a function on that record.
-/

namespace UmdkCounter

/-! ## Constants from headers -/

/-- Modelled from the spec: `UMDK_COUNTER_NUM_SENS` is defined in `umdk-counter.h`,
which is not among the sources.  The spec fixes four channels; `pins_sens` has four
initialisers and the packing code reads `count_value[0..3]`. -/
abbrev UMDK_COUNTER_NUM_SENS : Nat := 4

/-- Modelled from the spec: `UMDK_COUNTER_PUBLISH_PERIOD_MIN` (from `umdk-counter.h`),
given as `MIN=1` in the spec. -/
def UMDK_COUNTER_PUBLISH_PERIOD_MIN : Nat := 1

/-- Modelled from the spec: `UMDK_COUNTER_PUBLISH_PERIOD_MAX` (from `umdk-counter.h`),
given as `MAX=24` in the spec. -/
def UMDK_COUNTER_PUBLISH_PERIOD_MAX : Nat := 24

/-- Modelled from the spec: opcode `SET_PERIOD=1` of `umdk_counter_cmd_t`
(from `umdk-counter.h`). -/
def UMDK_COUNTER_CMD_SET_PERIOD : Nat := 1

/-- Modelled from the spec: opcode `POLL=2` of `umdk_counter_cmd_t`. -/
def UMDK_COUNTER_CMD_POLL : Nat := 2

/-- Modelled from the spec: opcode `RESET=3` of `umdk_counter_cmd_t`. -/
def UMDK_COUNTER_CMD_RESET : Nat := 3

/-- Build parameters the sources leave to headers and to the target:
`UNWDS_COUNTER_MODULE_ID`, `UMDK_COUNTER_VALUE_PERIOD_PER_SEC`, and the byte order in
which the CPU stores a 32-bit word (`*(uint32_t *)p = w`). -/
structure Platform where
  module_id : Nat
  period_per_sec : Nat
  big_endian : Bool

/-- The target of the sources, an ARM Cortex-M (`cpu/cortexm_common`): little-endian. -/
def cortexm (module_id period_per_sec : Nat) : Platform :=
  { module_id := module_id, period_per_sec := period_per_sec, big_endian := false }

/-! ## Data model -/

/-- Index of a counting input, `0 ≤ i < UMDK_COUNTER_NUM_SENS`. -/
abbrev Chan := Fin UMDK_COUNTER_NUM_SENS

/-- The loop range `for (i = 0; i < UMDK_COUNTER_NUM_SENS; i++)`. -/
def channels : List Chan := [0, 1, 2, 3]

/-- Conversion to `uint32_t`. -/
def u32 (x : Nat) : Nat := x % 2 ^ 32

/-- Conversion to `uint8_t`. -/
def u8 (x : Nat) : Nat := x % 2 ^ 8

/-- Pin modes used by the module. -/
inductive gpio_mode_t where
  | GPIO_IN_PU
  | GPIO_AIN
  deriving DecidableEq, Repr

/-- The persisted aggregate `conf_counter`. -/
structure conf_counter_t where
  is_valid : Nat
  count_value : Chan → Nat
  publish_period : Nat

/-- The buffer type `module_data_t`: a length byte and a byte array. -/
structure module_data_t where
  length : Nat
  data : Nat → Nat

/-- The first `length` bytes of a buffer: what a consumer of the buffer sees. -/
def module_data_t.bytes (d : module_data_t) : List Nat :=
  (List.range d.length).map d.data

/-- Globals of the module together with the state of its collaborators. -/
structure State where
  /-- global `conf_counter` -/
  conf_counter : conf_counter_t
  /-- global `ignore_irq[]`: nonzero while the channel is settling -/
  ignore_irq : Chan → Nat
  /-- global `last_value[]` -/
  last_value : Chan → Nat
  /-- mode of pin `pins_sens[i]` as last set by `gpio_init` -/
  pin_mode : Chan → gpio_mode_t
  /-- whether the interrupt of `pins_sens[i]` is enabled -/
  irq_enabled : Chan → Bool
  /-- whether the interrupt of `UMDK_COUNTER_BTN` is enabled -/
  btn_irq_enabled : Bool
  /-- whether the RTC wakeup that runs `counter_poll` is scheduled -/
  rtc_wakeup : Bool
  /-- delay `publishing_timer` was last armed with, if armed -/
  publishing_timer : Option Nat
  /-- number of `publishing_msg` posted to the handler thread and not yet received -/
  msg_pending : Nat
  /-- images passed to `unwds_write_nvram_config`, newest first -/
  nvram_writes : List conf_counter_t
  /-- buffers passed to `callback`, newest first -/
  emitted : List module_data_t
  /-- whether the handler thread has been created -/
  thread_created : Bool
  /-- whether the shell command has been registered -/
  shell_registered : Bool

/-! ## Telemetry codec (the packing code of `handler`) -/

/-- Byte `k` (0 = least significant) of a 32-bit word. -/
def word_byte (w k : Nat) : Nat := (w / 2 ^ (8 * k)) % 256

/-- Memory after `*(uint32_t *)(&mem[off]) = w`. -/
def store32 (be : Bool) (mem : Nat → Nat) (off w : Nat) : Nat → Nat :=
  fun k =>
    if k = off then word_byte w (if be then 3 else 0)
    else if k = off + 1 then word_byte w (if be then 2 else 1)
    else if k = off + 2 then word_byte w (if be then 1 else 2)
    else if k = off + 3 then word_byte w (if be then 0 else 3)
    else mem k

/-- Value of `*(uint32_t *)(&mem[off])`. -/
def load32 (be : Bool) (mem : Nat → Nat) (off : Nat) : Nat :=
  if be then
    mem off * 2 ^ 24 + mem (off + 1) * 2 ^ 16 + mem (off + 2) * 2 ^ 8 + mem (off + 3)
  else
    mem off + mem (off + 1) * 2 ^ 8 + mem (off + 2) * 2 ^ 16 + mem (off + 3) * 2 ^ 24

/-- Lines 123 to 140 of `handler`: the buffer `data` after the packing code, where
`data0` is the content of the uninitialised local before it. -/
def build_frame (p : Platform) (c : conf_counter_t) (data0 : module_data_t) :
    module_data_t :=
  let len := u8 (1 + 4 * UMDK_COUNTER_NUM_SENS)
  let m0 := Function.update data0.data 0 (u8 p.module_id)
  let tmp := 1
  let m1 := store32 p.big_endian m0 (tmp + 0) (u32 (c.count_value 0 <<< 8))
  let m2 := store32 p.big_endian m1 (tmp + 0)
    (load32 p.big_endian m1 (tmp + 0) ||| ((c.count_value 1 >>> 16) &&& 0xFF))
  let m3 := store32 p.big_endian m2 (tmp + 4) (u32 (c.count_value 1 <<< 16))
  let m4 := store32 p.big_endian m3 (tmp + 4)
    (load32 p.big_endian m3 (tmp + 4) ||| ((c.count_value 2 >>> 8) &&& 0xFFFF))
  let m5 := store32 p.big_endian m4 (tmp + 8) (u32 (c.count_value 2 <<< 24))
  let m6 := store32 p.big_endian m5 (tmp + 8)
    (load32 p.big_endian m5 (tmp + 8) ||| (c.count_value 3 &&& 0xFFFFFF))
  { length := len, data := m6 }

/-- The word `*(tmp + 0)` after the packing code, in arithmetic form. -/
def word0 (c : Chan → Nat) : Nat := 2 ^ 8 * (c 0 % 2 ^ 24) + c 1 / 2 ^ 16 % 2 ^ 8

/-- The word `*(tmp + 1)` after the packing code, in arithmetic form. -/
def word1 (c : Chan → Nat) : Nat := 2 ^ 16 * (c 1 % 2 ^ 16) + c 2 / 2 ^ 8 % 2 ^ 16

/-- The word `*(tmp + 2)` after the packing code, in arithmetic form. -/
def word2 (c : Chan → Nat) : Nat := 2 ^ 24 * (c 2 % 2 ^ 8) + c 3 % 2 ^ 24

/-- The layout the spec gives for the first 13 bytes of a frame: the module id, then
the 24 bits of each counter, most significant byte first. -/
def spec_layout (module_id : Nat) (c : Chan → Nat) : List Nat :=
  [module_id,
   c 0 / 2 ^ 16 % 256, c 0 / 2 ^ 8 % 256, c 0 % 256,
   c 1 / 2 ^ 16 % 256, c 1 / 2 ^ 8 % 256, c 1 % 256,
   c 2 / 2 ^ 16 % 256, c 2 / 2 ^ 8 % 256, c 2 % 256,
   c 3 / 2 ^ 16 % 256, c 3 / 2 ^ 8 % 256, c 3 % 256]

/-- The first 13 bytes of a frame on a little-endian build: within each group of four
packed bytes the order of `spec_layout` is reversed. -/
def little_endian_layout (module_id : Nat) (c : Chan → Nat) : List Nat :=
  [module_id,
   c 1 / 2 ^ 16 % 256, c 0 % 256, c 0 / 2 ^ 8 % 256, c 0 / 2 ^ 16 % 256,
   c 2 / 2 ^ 8 % 256, c 2 / 2 ^ 16 % 256, c 1 % 256, c 1 / 2 ^ 8 % 256,
   c 3 % 256, c 3 / 2 ^ 8 % 256, c 3 / 2 ^ 16 % 256, c 2 % 256]

/-- Modelled from the spec: the decoder is not part of the sources.  It is the inverse
the spec describes: read `word0, word1, word2` back from the 12-byte block after the
module id, in the platform's byte order, and extract the four 24-bit fields. -/
def decode (p : Platform) (d : module_data_t) : Nat × (Chan → Nat) :=
  let w0 := load32 p.big_endian d.data 1
  let w1 := load32 p.big_endian d.data 5
  let w2 := load32 p.big_endian d.data 9
  (d.data 0, fun i =>
    match i with
    | 0 => w0 >>> 8
    | 1 => ((w0 &&& 0xFF) <<< 16) ||| (w1 >>> 16)
    | 2 => ((w1 &&& 0xFFFF) <<< 8) ||| (w2 >>> 24)
    | 3 => w2 &&& 0xFFFFFF)

/-! ## Debounce engine -/

/-- Body of the loop of `counter_poll` for channel `i`; `value` is the result of
`gpio_read(pins_sens[i])` as a `uint32_t`, the second component is the local `wakeup`. -/
def poll_channel (value : Nat) (i : Chan) (acc : State × Bool) : State × Bool :=
  let s := acc.1
  let wakeup := acc.2
  if s.ignore_irq i ≠ 0 then
    -- gpio_init(GPIO_IN_PU); gpio_read; gpio_init(GPIO_AIN)
    let s1 := { s with pin_mode := Function.update s.pin_mode i gpio_mode_t.GPIO_AIN }
    if value = s1.last_value i then
      if value ≠ 0 then
        ({ s1 with
            ignore_irq := Function.update s1.ignore_irq i 0
            pin_mode := Function.update s1.pin_mode i gpio_mode_t.GPIO_IN_PU
            irq_enabled := Function.update s1.irq_enabled i true }, wakeup)
      else
        (s1, true)
    else
      ({ s1 with last_value := Function.update s1.last_value i (u8 value) }, wakeup)
  else
    (s, wakeup)

/-- The loop of `counter_poll`. -/
def poll_loop (levels : Chan → Nat) (s : State) : State × Bool :=
  channels.foldl (fun acc i => poll_channel (levels i) i acc) (s, false)

/-- The function `counter_poll`; `levels i` is what `gpio_read` returns for channel `i`. -/
def counter_poll (levels : Chan → Nat) (s : State) : State :=
  let r := poll_loop levels s
  if r.2 = false then { r.1 with rtc_wakeup := false } else r.1

/-- The function `counter_irq`, the edge interrupt of channel `num`. -/
def counter_irq (num : Chan) (s : State) : State :=
  if s.ignore_irq num ≠ 0 then s
  else
    { s with
        ignore_irq := Function.update s.ignore_irq num 1
        irq_enabled := Function.update s.irq_enabled num false
        pin_mode := Function.update s.pin_mode num gpio_mode_t.GPIO_AIN
        conf_counter :=
          { s.conf_counter with
              count_value := Function.update s.conf_counter.count_value num
                (u32 (s.conf_counter.count_value num + 1)) }
        last_value := Function.update s.last_value num 0
        rtc_wakeup := true }

/-- One period of the RTC wakeup: `counter_poll` runs if the wakeup is scheduled,
otherwise nothing runs. -/
def poll_cycle (levels : Chan → Nat) (s : State) : State :=
  if s.rtc_wakeup then counter_poll levels s else s

/-! ## Persistence, worker and scheduler -/

/-- The function `save_config`. -/
def save_config (s : State) : State :=
  let c := { s.conf_counter with is_valid := 1 }
  { s with conf_counter := c, nvram_writes := c :: s.nvram_writes }

/-- One iteration of the loop of `handler` after `msg_receive` returned. -/
def handler_body (p : Platform) (data0 : module_data_t) (s : State) : State :=
  let data := build_frame p s.conf_counter data0
  let s1 := save_config s
  let s2 := { s1 with emitted := data :: s1.emitted }
  let s3 :=
    if s2.conf_counter.publish_period ≠ 0 then
      { s2 with publishing_timer := some (p.period_per_sec * s2.conf_counter.publish_period) }
    else s2
  { s3 with btn_irq_enabled := true }

/-- One iteration of `handler` including `msg_receive`: blocked (`none`) while no
message is pending. -/
def handler_step (p : Platform) (data0 : module_data_t) (s : State) : Option State :=
  if s.msg_pending = 0 then none
  else some (handler_body p data0 { s with msg_pending := s.msg_pending - 1 })

/-- The function `btn_connect`. -/
def btn_connect (s : State) : State :=
  { s with btn_irq_enabled := false, publishing_timer := some 1 }

/-- The function `reset_config`. -/
def reset_config (s : State) : State :=
  { s with
      conf_counter :=
        { is_valid := 0
          count_value := fun _ => 0
          publish_period := UMDK_COUNTER_PUBLISH_PERIOD_MIN } }

/-- The function `set_period`; the first component is the returned `int`. -/
def set_period (p : Platform) (period : Int) (s : State) : Nat × State :=
  if period = 0 ∨ period > (UMDK_COUNTER_PUBLISH_PERIOD_MAX : Int) then (0, s)
  else
    let s1 := { s with
      conf_counter := { s.conf_counter with publish_period := (period % 256).toNat } }
    let s2 := save_config s1
    (1, { s2 with
            publishing_timer := some (p.period_per_sec * s2.conf_counter.publish_period) })

/-! ## Console and initialisation -/

/-- The function `umdk_counter_shell_cmd`; `cmd` is `argv[1]` and `val` is
`atoi(argv[2])`.  The first component is the returned `int`. -/
def umdk_counter_shell_cmd (p : Platform) (argc : Nat) (cmd : String) (val : Int)
    (s : State) : Nat × State :=
  if argc = 1 then (0, s)
  else
    let s1 := if cmd = "send" then { s with msg_pending := s.msg_pending + 1 } else s
    if cmd = "period" then set_period p val s1
    else
      let s2 := if cmd = "reset" then save_config (reset_config s1) else s1
      (1, s2)

/-- The function `umdk_counter_init`; `stack_ok` tells whether `allocate_stack`
succeeded and `image` is the result of `unwds_read_nvram_config` (`none`: it failed). -/
def umdk_counter_init (p : Platform) (stack_ok : Bool) (image : Option conf_counter_t)
    (s : State) : State :=
  let s1 := { s with
    conf_counter := { s.conf_counter with publish_period := UMDK_COUNTER_PUBLISH_PERIOD_MIN } }
  let s2 := channels.foldl (fun (a : State) i =>
    { a with
        pin_mode := Function.update a.pin_mode i gpio_mode_t.GPIO_IN_PU
        irq_enabled := Function.update a.irq_enabled i true
        ignore_irq := Function.update a.ignore_irq i 0 }) s1
  let s3 := { s2 with btn_irq_enabled := true }
  if stack_ok = false then s3
  else
    match image with
    | none => s3
    | some img =>
      let s4 := { s3 with conf_counter := img }
      let s5 :=
        if s4.conf_counter.is_valid = 0xFF ∨ s4.conf_counter.is_valid = 0 then reset_config s4
        else s4
      { s5 with
          shell_registered := true
          thread_created := true
          publishing_timer := some (p.period_per_sec * s5.conf_counter.publish_period) }

/-! ## Command handler -/

/-- The function `umdk_counter_cmd`: the returned `bool`, the buffer `*reply` and the
state after the call. -/
def umdk_counter_cmd (p : Platform) (cmd reply : module_data_t) (s : State) :
    Bool × module_data_t × State :=
  if cmd.length < 1 then (false, reply, s)
  else
    let c := cmd.data 0
    if c = UMDK_COUNTER_CMD_SET_PERIOD then
      if cmd.length ≠ 2 then (false, reply, s)
      else
        let period := u8 (cmd.data 1)
        let reply1 : module_data_t :=
          { length := 2, data := Function.update reply.data 0 (u8 p.module_id) }
        let r := set_period p (period : Int) s
        if r.1 = 0 then
          (true, { reply1 with data := Function.update reply1.data 1 253 }, r.2)
        else
          (true, { reply1 with data := Function.update reply1.data 1 0 }, r.2)
    else if c = UMDK_COUNTER_CMD_POLL then
      (false, reply, { s with msg_pending := s.msg_pending + 1 })
    else if c = UMDK_COUNTER_CMD_RESET then
      let s1 := save_config
        { s with conf_counter := { s.conf_counter with count_value := fun _ => 0 } }
      let reply1 : module_data_t :=
        { length := 2, data := Function.update reply.data 0 (u8 p.module_id) }
      (true, { reply1 with data := Function.update reply1.data 1 0 }, s1)
    else (false, reply, s)

/-- State of the globals at boot: statics are zero-initialised, nothing is scheduled. -/
def boot_state : State :=
  { conf_counter := { is_valid := 0, count_value := fun _ => 0, publish_period := 0 }
    ignore_irq := fun _ => 0
    last_value := fun _ => 0
    pin_mode := fun _ => gpio_mode_t.GPIO_AIN
    irq_enabled := fun _ => false
    btn_irq_enabled := false
    rtc_wakeup := false
    publishing_timer := none
    msg_pending := 0
    nvram_writes := []
    emitted := []
    thread_created := false
    shell_registered := false }

/-! ## Events after initialisation -/

/-- What the module reacts to once `umdk_counter_init` has run: an edge interrupt
(`counter_irq`), the RTC wakeup (`counter_poll` with the sampled levels), a message
received by the worker (one iteration of `handler`), a command (`umdk_counter_cmd`), a
console line (`umdk_counter_shell_cmd`) and the connect button (`btn_connect`). -/
inductive Event where
  | edge (i : Chan)
  | poll (levels : Chan → Nat)
  | publish (data0 : module_data_t)
  | command (cmd reply : module_data_t)
  | console (argc : Nat) (cmd : String) (val : Int)
  | button

/-- The state after one event. -/
def step (p : Platform) (e : Event) (s : State) : State :=
  match e with
  | Event.edge i => counter_irq i s
  | Event.poll levels => counter_poll levels s
  | Event.publish data0 => handler_body p data0 s
  | Event.command cmd reply => (umdk_counter_cmd p cmd reply s).2.2
  | Event.console argc cmd val => (umdk_counter_shell_cmd p argc cmd val s).2
  | Event.button => btn_connect s

/-- The state after a sequence of events, oldest first. -/
def run (p : Platform) (es : List Event) (s : State) : State :=
  es.foldl (fun st e => step p e st) s

/-- Whether the integer a console line passes to `set_period` is not negative (true of
every other event). -/
def Event.arg_nonneg (e : Event) : Prop :=
  match e with
  | Event.console _ _ val => 0 ≤ val
  | _ => True

/-- The image most recently passed to `unwds_write_nvram_config`, if any: what a
restart reads back. -/
def last_image (s : State) : Option conf_counter_t := s.nvram_writes.head?

/-- The period-range property: `MIN ≤ publish_period ≤ MAX`. -/
def period_in_range (c : conf_counter_t) : Prop :=
  UMDK_COUNTER_PUBLISH_PERIOD_MIN ≤ c.publish_period ∧
    c.publish_period ≤ UMDK_COUNTER_PUBLISH_PERIOD_MAX

/-- A persisted image marked valid whose period, 200, is above `MAX`. -/
def long_period_image : conf_counter_t :=
  { is_valid := 1, count_value := fun _ => 0, publish_period := 200 }

/-! ## Sample inputs -/

/-- The counter array holding `a, b, c, d`. -/
def counts4 (a b c d : Nat) : Chan → Nat :=
  fun i =>
    match i with
    | 0 => a
    | 1 => b
    | 2 => c
    | 3 => d

/-- A configuration with the given counters, marked valid, with period 1. -/
def conf_with (counts : Chan → Nat) : conf_counter_t :=
  { is_valid := 1, count_value := counts, publish_period := 1 }

/-- A buffer whose bytes all hold `fill`, standing for an uninitialised local. -/
def filled (fill : Nat) : module_data_t :=
  { length := 0, data := fun _ => fill }

/-- A Cortex-M build with module id 9 and 3600 timer units per period unit. -/
def sample_platform : Platform := cortexm 9 3600

/-- State of the module after a successful `umdk_counter_init` on the sample platform
with a valid all-zero image: every channel armed. -/
def armed_state : State :=
  umdk_counter_init sample_platform true (some (conf_with (counts4 0 0 0 0))) boot_state

/-- The command buffer holding the bytes `l`. -/
def cmd_bytes (l : List Nat) : module_data_t :=
  { length := l.length, data := fun k => l.getD k 0 }

/-- State after the command SET_PERIOD(5) on `armed_state`. -/
def period5_state : State :=
  (umdk_counter_cmd sample_platform (cmd_bytes [UMDK_COUNTER_CMD_SET_PERIOD, 5]) (filled 0)
    armed_state).2.2

/-- The image read from erased flash: every byte `0xFF`. -/
def erased_image : conf_counter_t :=
  { is_valid := 0xFF, count_value := fun _ => 0xFFFFFFFF, publish_period := 0xFF }

/-- The armed state with counter 0 at the largest 32-bit value. -/
def full_counter_state : State :=
  { armed_state with
      conf_counter :=
        { armed_state.conf_counter with count_value := counts4 0xFFFFFFFF 0 0 0 } }

/-- The state after accepted edges on channels 0 and 1 of `armed_state`: both
settling, the wakeup scheduled. -/
def two_settling_state : State := counter_irq 1 (counter_irq 0 armed_state)

/-! ## Codec: auxiliary facts -/

theorem and_0xFF (x : Nat) : x &&& 0xFF = x % 2 ^ 8 := Nat.and_pow_two_sub_one_eq_mod x 8
theorem and_0xFFFF (x : Nat) : x &&& 0xFFFF = x % 2 ^ 16 := Nat.and_pow_two_sub_one_eq_mod x 16
theorem and_0xFFFFFF (x : Nat) : x &&& 0xFFFFFF = x % 2 ^ 24 := Nat.and_pow_two_sub_one_eq_mod x 24

theorem or_low (i a b : Nat) (h : b < 2 ^ i) : 2 ^ i * a ||| b = 2 ^ i * a + b :=
  (Nat.mul_add_lt_is_or h a).symm

theorem word0_eq (c : Chan → Nat) :
    u32 (c 0 <<< 8) ||| ((c 1 >>> 16) &&& 0xFF) = word0 c := by
  have h1 : u32 (c 0 <<< 8) = 2 ^ 8 * (c 0 % 2 ^ 24) := by
    simp only [u32, Nat.shiftLeft_eq]; omega
  rw [h1, and_0xFF, Nat.shiftRight_eq_div_pow, or_low _ _ _ (Nat.mod_lt _ (by norm_num))]
  rfl

theorem word1_eq (c : Chan → Nat) :
    u32 (c 1 <<< 16) ||| ((c 2 >>> 8) &&& 0xFFFF) = word1 c := by
  have h1 : u32 (c 1 <<< 16) = 2 ^ 16 * (c 1 % 2 ^ 16) := by
    simp only [u32, Nat.shiftLeft_eq]; omega
  rw [h1, and_0xFFFF, Nat.shiftRight_eq_div_pow, or_low _ _ _ (Nat.mod_lt _ (by norm_num))]
  rfl

theorem word2_eq (c : Chan → Nat) :
    u32 (c 2 <<< 24) ||| (c 3 &&& 0xFFFFFF) = word2 c := by
  have h1 : u32 (c 2 <<< 24) = 2 ^ 24 * (c 2 % 2 ^ 8) := by
    simp only [u32, Nat.shiftLeft_eq]; omega
  rw [h1, and_0xFFFFFF, or_low _ _ _ (Nat.mod_lt _ (by norm_num))]
  rfl

theorem word0_lt (c : Chan → Nat) : word0 c < 2 ^ 32 := by unfold word0; omega
theorem word1_lt (c : Chan → Nat) : word1 c < 2 ^ 32 := by unfold word1; omega
theorem word2_lt (c : Chan → Nat) : word2 c < 2 ^ 32 := by unfold word2; omega

theorem load32_store32 (be : Bool) (m : Nat → Nat) (off w : Nat) (h : w < 2 ^ 32) :
    load32 be (store32 be m off w) off = w := by
  cases be <;> simp [load32, store32, word_byte] <;> omega

theorem store32_store32 (be : Bool) (m : Nat → Nat) (off v w : Nat) :
    store32 be (store32 be m off v) off w = store32 be m off w := by
  funext k
  simp only [store32]
  split_ifs <;> rfl

theorem u32_lt (x : Nat) : u32 x < 2 ^ 32 := Nat.mod_lt _ (by norm_num)

/-- Closed form of the packing code. -/
theorem build_frame_eq (p : Platform) (c : conf_counter_t) (d : module_data_t) :
    build_frame p c d =
      { length := 17
        data := store32 p.big_endian (store32 p.big_endian (store32 p.big_endian
          (Function.update d.data 0 (u8 p.module_id)) 1 (word0 c.count_value))
            5 (word1 c.count_value)) 9 (word2 c.count_value) } := by
  simp only [build_frame, Nat.add_zero, load32_store32 _ _ _ _ (u32_lt _), store32_store32,
    word0_eq, word1_eq, word2_eq]
  rfl

theorem store32_apply_outside (be : Bool) (m : Nat → Nat) (off w k : Nat)
    (h : k < off ∨ off + 4 ≤ k) : store32 be m off w k = m k := by
  simp only [store32]
  split_ifs <;> first | rfl | omega

theorem load32_store32_of_disjoint (be : Bool) (m : Nat → Nat) (off off2 w : Nat)
    (h : off + 4 ≤ off2 ∨ off2 + 4 ≤ off) :
    load32 be (store32 be m off2 w) off = load32 be m off := by
  have e : ∀ k, off ≤ k → k < off + 4 → store32 be m off2 w k = m k :=
    fun k h1 h2 => store32_apply_outside be m off2 w k (by omega)
  simp only [load32, e off (by omega) (by omega), e (off + 1) (by omega) (by omega),
    e (off + 2) (by omega) (by omega), e (off + 3) (by omega) (by omega)]

theorem decode_build_frame (p : Platform) (c : conf_counter_t) (d : module_data_t) :
    decode p (build_frame p c d) =
      (u8 p.module_id, fun i => c.count_value i % 2 ^ 24) := by
  rw [build_frame_eq]
  simp only [decode]
  rw [load32_store32 _ _ _ _ (word2_lt _),
    load32_store32_of_disjoint _ _ 5 9 _ (by omega), load32_store32 _ _ _ _ (word1_lt _),
    load32_store32_of_disjoint _ _ 1 9 _ (by omega),
    load32_store32_of_disjoint _ _ 1 5 _ (by omega), load32_store32 _ _ _ _ (word0_lt _)]
  refine Prod.ext ?_ ?_
  · simp [store32, Function.update]
  · funext i
    have h1 : word1 c.count_value / 2 ^ 16 < 2 ^ 16 := by
      have := word1_lt c.count_value; omega
    have h2 : word2 c.count_value / 2 ^ 24 < 2 ^ 8 := by
      have := word2_lt c.count_value; omega
    match i with
    | 0 => simp only [Nat.shiftRight_eq_div_pow, word0]; omega
    | 1 =>
      simp only [and_0xFF, Nat.shiftLeft_eq, Nat.shiftRight_eq_div_pow]
      rw [Nat.mul_comm, or_low _ _ _ h1]
      simp only [word0, word1]; omega
    | 2 =>
      simp only [and_0xFFFF, Nat.shiftLeft_eq, Nat.shiftRight_eq_div_pow]
      rw [Nat.mul_comm, or_low _ _ _ h2]
      simp only [word1, word2]; omega
    | 3 => simp only [and_0xFFFFFF, word2]; omega

theorem word_byte_zero (k : Nat) : word_byte 0 k = 0 := by
  simp [word_byte]

theorem store32_zero_apply (be : Bool) (m : Nat → Nat) (off k : Nat) :
    store32 be m off 0 k = if off ≤ k ∧ k < off + 4 then 0 else m k := by
  simp only [store32, word_byte_zero]
  split_ifs <;> first | rfl | omega

theorem decode_counts_congr (p : Platform) (d d2 : module_data_t)
    (h : ∀ k, 1 ≤ k → k ≤ 12 → d.data k = d2.data k) :
    (decode p d).2 = (decode p d2).2 := by
  have e : ∀ off, 1 ≤ off → off ≤ 9 →
      load32 p.big_endian d.data off = load32 p.big_endian d2.data off := by
    intro off h1 h2
    simp only [load32, h off (by omega) (by omega), h (off + 1) (by omega) (by omega),
      h (off + 2) (by omega) (by omega), h (off + 3) (by omega) (by omega)]
  simp only [decode, e 1 (by omega) (by omega), e 5 (by omega) (by omega),
    e 9 (by omega) (by omega)]

theorem take13_map_range17 (f : Nat → Nat) :
    ((List.range 17).map f).take 13 =
      [f 0, f 1, f 2, f 3, f 4, f 5, f 6, f 7, f 8, f 9, f 10, f 11, f 12] := rfl

theorem build_frame_length (p : Platform) (c : conf_counter_t) (d : module_data_t) :
    (build_frame p c d).length = 17 := rfl

theorem bytes_take13 (p : Platform) (c : conf_counter_t) (d : module_data_t) :
    (build_frame p c d).bytes.take 13 =
      [(build_frame p c d).data 0, (build_frame p c d).data 1, (build_frame p c d).data 2,
       (build_frame p c d).data 3, (build_frame p c d).data 4, (build_frame p c d).data 5,
       (build_frame p c d).data 6, (build_frame p c d).data 7, (build_frame p c d).data 8,
       (build_frame p c d).data 9, (build_frame p c d).data 10, (build_frame p c d).data 11,
       (build_frame p c d).data 12] :=
  take13_map_range17 _

/-! ## Telemetry codec: properties -/

/-- C1: codec round trip.  For a module id that fits one byte and counters all below
2^24, decoding the frame that the packing code of `handler` builds returns the module
id and the counters; hence the packing is injective on such counters: two
configurations whose frames agree on the 12 packed bytes have the same counters. -/
theorem codec_round_trip (p : Platform) (c : conf_counter_t) (d : module_data_t)
    (hid : p.module_id < 2 ^ 8) (hc : ∀ i, c.count_value i < 2 ^ 24) :
    decode p (build_frame p c d) = (p.module_id, c.count_value) ∧
    ∀ (c2 : conf_counter_t) (d2 : module_data_t), (∀ i, c2.count_value i < 2 ^ 24) →
      (∀ k, 1 ≤ k → k ≤ 12 → (build_frame p c2 d2).data k = (build_frame p c d).data k) →
      c2.count_value = c.count_value := by
  have key : ∀ (c1 : conf_counter_t) (d1 : module_data_t), (∀ i, c1.count_value i < 2 ^ 24) →
      decode p (build_frame p c1 d1) = (p.module_id, c1.count_value) := by
    intro c1 d1 h1
    rw [decode_build_frame]
    refine Prod.ext (Nat.mod_eq_of_lt hid) ?_
    funext i
    exact Nat.mod_eq_of_lt (h1 i)
  refine ⟨key c d hc, ?_⟩
  intro c2 d2 h2 hb
  have e := decode_counts_congr p _ _ hb
  rw [key c2 d2 h2, key c d hc] at e
  exact e

/-- Witness of C1 on a Cortex-M build with counters 3, 1, 0, 0. -/
theorem codec_round_trip_witness :
    sample_platform.module_id < 2 ^ 8 ∧
    (∀ i, (conf_with (counts4 3 1 0 0)).count_value i < 2 ^ 24) ∧
    decode sample_platform (build_frame sample_platform (conf_with (counts4 3 1 0 0)) (filled 0xAA))
      = (sample_platform.module_id, (conf_with (counts4 3 1 0 0)).count_value) :=
  ⟨by decide, by decide,
    (codec_round_trip sample_platform (conf_with (counts4 3 1 0 0)) (filled 0xAA)
      (by decide) (by decide)).1⟩

/-- C2: codec truncation.  The frame built by the packing code of `handler` depends
only on the low 24 bits of each counter: reducing every counter modulo 2^24 gives the
same frame; in particular counters `0x01000000, 0, 0, 0` give the same frame as
`0, 0, 0, 0`, namely the module id followed by 12 zero bytes. -/
theorem codec_truncation :
    (∀ (p : Platform) (c : conf_counter_t) (d : module_data_t),
      build_frame p c d =
        build_frame p { c with count_value := fun i => c.count_value i % 2 ^ 24 } d) ∧
    (∀ (p : Platform) (d : module_data_t),
      build_frame p (conf_with (counts4 0x01000000 0 0 0)) d =
        build_frame p (conf_with (counts4 0 0 0 0)) d ∧
      (build_frame p (conf_with (counts4 0x01000000 0 0 0)) d).bytes.take 13 =
        u8 p.module_id :: List.replicate 12 0) := by
  have w0 : ∀ c : Chan → Nat, word0 (fun i => c i % 2 ^ 24) = word0 c := by
    intro c; simp only [word0]; omega
  have w1 : ∀ c : Chan → Nat, word1 (fun i => c i % 2 ^ 24) = word1 c := by
    intro c; simp only [word1]; omega
  have w2 : ∀ c : Chan → Nat, word2 (fun i => c i % 2 ^ 24) = word2 c := by
    intro c; simp only [word2]; omega
  have z0 : word0 (counts4 0x01000000 0 0 0) = 0 := by decide
  have z1 : word1 (counts4 0x01000000 0 0 0) = 0 := by decide
  have z2 : word2 (counts4 0x01000000 0 0 0) = 0 := by decide
  have y0 : word0 (counts4 0 0 0 0) = 0 := by decide
  have y1 : word1 (counts4 0 0 0 0) = 0 := by decide
  have y2 : word2 (counts4 0 0 0 0) = 0 := by decide
  refine ⟨?_, ?_⟩
  · intro p c d
    rw [build_frame_eq, build_frame_eq]
    simp only [w0, w1, w2]
  · intro p d
    refine ⟨?_, ?_⟩
    · rw [build_frame_eq, build_frame_eq]
      simp only [conf_with, z0, z1, z2, y0, y1, y2]
    · rw [bytes_take13, build_frame_eq]
      simp [conf_with, z0, z1, z2, store32_zero_apply, List.replicate]

/-- C3: length of the frame handed to the outbound callback.  One iteration of
`handler` passes exactly the buffer built by the packing code to the callback, and the
length of that buffer is `1 + 4 * UMDK_COUNTER_NUM_SENS = 17`, not 13, in every state;
the bytes from index 13 on are those the uninitialised local held before. -/
theorem handler_frame_length_is_17 (p : Platform) (d : module_data_t) (s : State) :
    (handler_body p d s).emitted = build_frame p s.conf_counter d :: s.emitted ∧
    (build_frame p s.conf_counter d).length = 17 ∧
    (build_frame p s.conf_counter d).length ≠ 13 ∧
    ∀ k, (build_frame p s.conf_counter d).data (13 + k) = d.data (13 + k) := by
  refine ⟨?_, rfl, by rw [build_frame_length]; decide, ?_⟩
  · simp only [handler_body, save_config]
    split_ifs <;> rfl
  · intro k
    have hk : 13 + k ≠ 0 := by omega
    rw [build_frame_eq]
    simp only [store32_apply_outside _ _ 9 _ (13 + k) (Or.inr (by omega)),
      store32_apply_outside _ _ 5 _ (13 + k) (Or.inr (by omega)),
      store32_apply_outside _ _ 1 _ (13 + k) (Or.inr (by omega)),
      Function.update_noteq hk]

/-- C4, as stated, fails on the Cortex-M build: with counters 1, 0, 0, 0 the first 13
bytes of the frame are not the most-significant-first layout of the spec (the byte
holding the low bits of counter 0 is at index 2, not 3). -/
theorem frame_layout_counterexample :
    (build_frame sample_platform (conf_with (counts4 1 0 0 0)) (filled 0)).bytes.take 13
      ≠ spec_layout sample_platform.module_id (counts4 1 0 0 0) := by
  decide

/-- C4, amended: byte 0 of the frame is the module id (as a byte) and bytes 1 to 12
are `word0, word1, word2` in the byte order in which the CPU stores a 32-bit word.  On a
big-endian build they are the four 24-bit counters most significant byte first; on a
little-endian build (the Cortex-M target) each group of four bytes is reversed. -/
theorem frame_layout (p : Platform) (c : conf_counter_t) (d : module_data_t) :
    (build_frame p c d).bytes.take 13 =
      if p.big_endian = true then spec_layout (u8 p.module_id) c.count_value
      else little_endian_layout (u8 p.module_id) c.count_value := by
  rw [bytes_take13, build_frame_eq]
  cases h : p.big_endian
  · simp [store32, word_byte, little_endian_layout, word0, word1, word2]
    omega
  · simp [store32, word_byte, spec_layout, word0, word1, word2]
    omega

/-- A decoder that reads the words most significant byte first does not invert the
frame of the little-endian build: for counters 1, 0, 0, 0 it returns 256 for counter 0. -/
theorem decode_big_endian_of_little_endian_frame :
    (decode { sample_platform with big_endian := true }
      (build_frame sample_platform (conf_with (counts4 1 0 0 0)) (filled 0))).2 0 = 256 := by
  decide

/-! ## Debounce engine: the poll pass, channel by channel -/

theorem poll_channel_ignore_irq (v : Nat) (i k : Chan) (acc : State × Bool) :
    (poll_channel v i acc).1.ignore_irq k =
      if k = i ∧ acc.1.ignore_irq i ≠ 0 ∧ v = acc.1.last_value i ∧ v ≠ 0 then 0
      else acc.1.ignore_irq k := by
  unfold poll_channel
  dsimp only
  split_ifs <;> simp_all [Function.update_apply]

theorem poll_channel_last_value (v : Nat) (i k : Chan) (acc : State × Bool) :
    (poll_channel v i acc).1.last_value k =
      if k = i ∧ acc.1.ignore_irq i ≠ 0 ∧ v ≠ acc.1.last_value i then u8 v
      else acc.1.last_value k := by
  unfold poll_channel
  dsimp only
  split_ifs <;> simp_all [Function.update_apply]

theorem poll_channel_flag (v : Nat) (i : Chan) (acc : State × Bool) :
    (poll_channel v i acc).2 =
      (acc.2 || decide (acc.1.ignore_irq i ≠ 0 ∧ v = acc.1.last_value i ∧ v = 0)) := by
  unfold poll_channel
  dsimp only
  split_ifs <;> simp_all

theorem poll_channel_irq_enabled (v : Nat) (i k : Chan) (acc : State × Bool) :
    (poll_channel v i acc).1.irq_enabled k =
      if k = i ∧ acc.1.ignore_irq i ≠ 0 ∧ v = acc.1.last_value i ∧ v ≠ 0 then true
      else acc.1.irq_enabled k := by
  unfold poll_channel
  dsimp only
  split_ifs <;> simp_all [Function.update_apply]

theorem poll_channel_pin_mode (v : Nat) (i k : Chan) (acc : State × Bool) :
    (poll_channel v i acc).1.pin_mode k =
      if k = i ∧ acc.1.ignore_irq i ≠ 0 then
        (if v = acc.1.last_value i ∧ v ≠ 0 then gpio_mode_t.GPIO_IN_PU
         else gpio_mode_t.GPIO_AIN)
      else acc.1.pin_mode k := by
  unfold poll_channel
  dsimp only
  split_ifs <;> simp_all [Function.update_apply]

theorem poll_channel_rest (v : Nat) (i : Chan) (acc : State × Bool) :
    (poll_channel v i acc).1.conf_counter = acc.1.conf_counter ∧
    (poll_channel v i acc).1.btn_irq_enabled = acc.1.btn_irq_enabled ∧
    (poll_channel v i acc).1.rtc_wakeup = acc.1.rtc_wakeup ∧
    (poll_channel v i acc).1.publishing_timer = acc.1.publishing_timer ∧
    (poll_channel v i acc).1.msg_pending = acc.1.msg_pending ∧
    (poll_channel v i acc).1.nvram_writes = acc.1.nvram_writes ∧
    (poll_channel v i acc).1.emitted = acc.1.emitted ∧
    (poll_channel v i acc).1.thread_created = acc.1.thread_created ∧
    (poll_channel v i acc).1.shell_registered = acc.1.shell_registered := by
  unfold poll_channel
  dsimp only
  split_ifs <;> simp


theorem chan_cases (P : Chan → Prop) (h0 : P 0) (h1 : P 1) (h2 : P 2) (h3 : P 3) :
    ∀ k, P k := by
  intro k
  fin_cases k
  · exact h0
  · exact h1
  · exact h2
  · exact h3

theorem chan_exists (P : Chan → Prop) : (∃ k, P k) ↔ P 0 ∨ P 1 ∨ P 2 ∨ P 3 := by
  constructor
  · rintro ⟨k, hk⟩
    revert hk
    revert k
    apply chan_cases <;> intro h <;> simp [h]
  · rintro (h | h | h | h) <;> exact ⟨_, h⟩

theorem poll_loop_ignore_irq (levels : Chan → Nat) (s : State) (k : Chan) :
    (poll_loop levels s).1.ignore_irq k =
      if s.ignore_irq k ≠ 0 ∧ levels k = s.last_value k ∧ levels k ≠ 0 then 0
      else s.ignore_irq k := by
  simp only [poll_loop, channels, List.foldl_cons, List.foldl_nil, poll_channel_ignore_irq,
    poll_channel_last_value]
  revert k
  apply chan_cases <;> simp

theorem poll_loop_last_value (levels : Chan → Nat) (s : State) (k : Chan) :
    (poll_loop levels s).1.last_value k =
      if s.ignore_irq k ≠ 0 ∧ levels k ≠ s.last_value k then u8 (levels k)
      else s.last_value k := by
  simp only [poll_loop, channels, List.foldl_cons, List.foldl_nil, poll_channel_ignore_irq,
    poll_channel_last_value]
  revert k
  apply chan_cases <;> simp

theorem poll_loop_irq_enabled (levels : Chan → Nat) (s : State) (k : Chan) :
    (poll_loop levels s).1.irq_enabled k =
      if s.ignore_irq k ≠ 0 ∧ levels k = s.last_value k ∧ levels k ≠ 0 then true
      else s.irq_enabled k := by
  simp only [poll_loop, channels, List.foldl_cons, List.foldl_nil, poll_channel_ignore_irq,
    poll_channel_last_value, poll_channel_irq_enabled]
  revert k
  apply chan_cases <;> simp

theorem poll_loop_pin_mode (levels : Chan → Nat) (s : State) (k : Chan) :
    (poll_loop levels s).1.pin_mode k =
      if s.ignore_irq k ≠ 0 then
        (if levels k = s.last_value k ∧ levels k ≠ 0 then gpio_mode_t.GPIO_IN_PU
         else gpio_mode_t.GPIO_AIN)
      else s.pin_mode k := by
  simp only [poll_loop, channels, List.foldl_cons, List.foldl_nil, poll_channel_ignore_irq,
    poll_channel_last_value, poll_channel_pin_mode]
  revert k
  apply chan_cases <;> simp

theorem poll_loop_flag (levels : Chan → Nat) (s : State) :
    (poll_loop levels s).2 = true ↔
      ∃ k, s.ignore_irq k ≠ 0 ∧ levels k = s.last_value k ∧ levels k = 0 := by
  simp only [poll_loop, channels, List.foldl_cons, List.foldl_nil, poll_channel_ignore_irq,
    poll_channel_last_value, poll_channel_flag]
  rw [chan_exists]
  simp [or_assoc]

theorem poll_loop_rest (levels : Chan → Nat) (s : State) :
    (poll_loop levels s).1.conf_counter = s.conf_counter ∧
    (poll_loop levels s).1.btn_irq_enabled = s.btn_irq_enabled ∧
    (poll_loop levels s).1.rtc_wakeup = s.rtc_wakeup ∧
    (poll_loop levels s).1.publishing_timer = s.publishing_timer ∧
    (poll_loop levels s).1.msg_pending = s.msg_pending ∧
    (poll_loop levels s).1.nvram_writes = s.nvram_writes ∧
    (poll_loop levels s).1.emitted = s.emitted ∧
    (poll_loop levels s).1.thread_created = s.thread_created ∧
    (poll_loop levels s).1.shell_registered = s.shell_registered := by
  simp only [poll_loop, channels, List.foldl_cons, List.foldl_nil]
  have h := fun v i acc => poll_channel_rest v i acc
  simp only [h]
  simp

theorem counter_poll_ignore_irq (levels : Chan → Nat) (s : State) (k : Chan) :
    (counter_poll levels s).ignore_irq k =
      if s.ignore_irq k ≠ 0 ∧ levels k = s.last_value k ∧ levels k ≠ 0 then 0
      else s.ignore_irq k := by
  rw [← poll_loop_ignore_irq]
  simp only [counter_poll]
  split_ifs <;> rfl

theorem counter_poll_rtc_wakeup (levels : Chan → Nat) (s : State) :
    (counter_poll levels s).rtc_wakeup = true ↔
      s.rtc_wakeup = true ∧
        ∃ k, s.ignore_irq k ≠ 0 ∧ levels k = s.last_value k ∧ levels k = 0 := by
  rw [← poll_loop_flag, ← (poll_loop_rest levels s).2.2.1]
  simp only [counter_poll]
  split_ifs with h <;> simp_all

/-- After an accepted edge on channel `i` of a state with every channel armed, if the
pin of channel `i` reads high, the first poll pass cancels the wakeup and leaves channel
`i` settling; no later poll cycle runs, so the channel is never armed again. -/
theorem edge_then_high_never_rearms (i : Chan) (s : State) (levels : Chan → Nat)
    (harmed : ∀ j, s.ignore_irq j = 0) (hi : levels i ≠ 0) (n : Nat) :
    ((poll_cycle levels)^[n + 1] (counter_irq i s)).ignore_irq i = 1 ∧
    ((poll_cycle levels)^[n + 1] (counter_irq i s)).rtc_wakeup = false := by
  have hs1 : (counter_irq i s).ignore_irq = Function.update s.ignore_irq i 1 := by
    simp [counter_irq, harmed i]
  have hl1 : (counter_irq i s).last_value i = 0 := by
    simp [counter_irq, harmed i]
  have hw1 : (counter_irq i s).rtc_wakeup = true := by
    simp [counter_irq, harmed i]
  have h1 : poll_cycle levels (counter_irq i s) = counter_poll levels (counter_irq i s) := by
    simp [poll_cycle, hw1]
  have hw2 : (counter_poll levels (counter_irq i s)).rtc_wakeup = false := by
    rw [Bool.eq_false_iff]
    intro h
    obtain ⟨_, k, hk, hk2, hk3⟩ := (counter_poll_rtc_wakeup _ _).1 h
    by_cases e : k = i
    · subst e; exact hi hk3
    · rw [hs1, Function.update_noteq e] at hk
      exact hk (harmed k)
  have hi2 : (counter_poll levels (counter_irq i s)).ignore_irq i = 1 := by
    rw [counter_poll_ignore_irq, hl1, if_neg (by tauto), hs1, Function.update_same]
  have hfix : poll_cycle levels (counter_poll levels (counter_irq i s)) =
      counter_poll levels (counter_irq i s) := by
    simp [poll_cycle, hw2]
  rw [Function.iterate_succ_apply, h1, Function.iterate_fixed hfix]
  exact ⟨hi2, hw2⟩


/-! ## Debounce engine: properties -/

theorem counter_irq_of_settling (i : Chan) (s : State) (h : s.ignore_irq i ≠ 0) :
    counter_irq i s = s := by
  simp only [counter_irq, if_pos h]

theorem counter_irq_keeps_settling (i j : Chan) (s : State) (h : s.ignore_irq i ≠ 0) :
    (counter_irq j s).ignore_irq i ≠ 0 ∧
    (counter_irq j s).conf_counter.count_value i = s.conf_counter.count_value i := by
  by_cases hj : s.ignore_irq j ≠ 0
  · rw [counter_irq_of_settling j s hj]; exact ⟨h, rfl⟩
  · have hij : i ≠ j := fun e => hj (e ▸ h)
    simp only [counter_irq, if_neg hj, Function.update_noteq hij]
    exact ⟨h, trivial⟩

theorem edges_keep_settling (i : Chan) (es : List Chan) :
    ∀ s : State, s.ignore_irq i ≠ 0 →
      (es.foldl (fun st j => counter_irq j st) s).ignore_irq i ≠ 0 ∧
      (es.foldl (fun st j => counter_irq j st) s).conf_counter.count_value i =
        s.conf_counter.count_value i := by
  induction es with
  | nil => intro s h; exact ⟨h, rfl⟩
  | cons j es ih =>
    intro s h
    have hj := counter_irq_keeps_settling i j s h
    have := ih (counter_irq j s) hj.1
    simp only [List.foldl_cons]
    exact ⟨this.1, this.2.trans hj.2⟩

/-- C5: debounce idempotence.  In a state where channel `i` is settling
(`ignore_irq[i] != 0`), `counter_irq` for channel `i` returns the state unchanged
(counters, flags, stored levels, timers), and any sequence of edge interrupts, on any
channels, leaves channel `i` settling and `count_value[i]` unchanged.  Hence, starting
from any state where channel `i` is armed, an edge on `i` followed by any sequence of
edges increments `count_value[i]` exactly once. -/
theorem debounce_idempotence (i : Chan) (s : State) (h : s.ignore_irq i ≠ 0) :
    counter_irq i s = s ∧
    (∀ es : List Chan,
      (es.foldl (fun st j => counter_irq j st) s).ignore_irq i ≠ 0 ∧
      (es.foldl (fun st j => counter_irq j st) s).conf_counter.count_value i =
        s.conf_counter.count_value i) ∧
    (∀ (t : State) (es : List Chan), t.ignore_irq i = 0 →
      (es.foldl (fun st j => counter_irq j st) (counter_irq i t)).conf_counter.count_value i =
        u32 (t.conf_counter.count_value i + 1)) := by
  refine ⟨counter_irq_of_settling i s h, fun es => edges_keep_settling i es s h, ?_⟩
  intro t es ht
  have h1 : (counter_irq i t).ignore_irq i ≠ 0 := by
    simp [counter_irq, ht]
  have h2 : (counter_irq i t).conf_counter.count_value i =
      u32 (t.conf_counter.count_value i + 1) := by
    simp [counter_irq, ht]
  rw [(edges_keep_settling i es (counter_irq i t) h1).2, h2]

/-- Witness of C5: after an accepted edge on channel 0, channel 0 is settling, a
second edge on it changes nothing, and further edges leave its counter at 1. -/
theorem debounce_idempotence_witness :
    (counter_irq 0 armed_state).ignore_irq 0 ≠ 0 ∧
    counter_irq 0 (counter_irq 0 armed_state) = counter_irq 0 armed_state ∧
    (counter_irq 0 armed_state).conf_counter.count_value 0 = 1 ∧
    ([0, 1, 0, 0].foldl (fun st j => counter_irq j st)
      (counter_irq 0 armed_state)).conf_counter.count_value 0 = 1 :=
  ⟨by decide,
   (debounce_idempotence 0 (counter_irq 0 armed_state) (by decide)).1,
   by decide,
   ((debounce_idempotence 0 (counter_irq 0 armed_state) (by decide)).2.1 [0, 1, 0, 0]).2.trans
     (by decide)⟩

/-- C6: debounce convergence fails.  From the state with every channel armed, after an
accepted edge on channel 0 and with the pin reading high (1) at every sample, the first
poll pass takes the level-changed branch, which does not set `wakeup`, so the wakeup is
cancelled while channel 0 is still settling; after any number of poll cycles channel 0
is still settling with its interrupt disabled. -/
theorem debounce_convergence_fails (n : Nat) :
    (counter_irq 0 armed_state).ignore_irq 0 = 1 ∧
    (counter_irq 0 armed_state).rtc_wakeup = true ∧
    ((poll_cycle (fun _ => 1))^[n + 1] (counter_irq 0 armed_state)).ignore_irq 0 = 1 ∧
    ((poll_cycle (fun _ => 1))^[n + 1] (counter_irq 0 armed_state)).rtc_wakeup = false := by
  have h := edge_then_high_never_rearms 0 armed_state (fun _ => 1) (by decide) (by decide) n
  exact ⟨by decide, by decide, h.1, h.2⟩

/-- C7: the poll-timer invariant fails.  After an accepted edge on channel 0 (all other
channels armed) the stored level is 0; a poll pass that samples 1 finds the level
changed, leaves channel 0 settling and stores the new level, yet the wakeup is cancelled
(`rtc_clear_wakeup` is called). -/
theorem poll_timer_cancelled_while_settling :
    (counter_irq 0 armed_state).rtc_wakeup = true ∧
    (counter_irq 0 armed_state).last_value 0 = 0 ∧
    (counter_poll (fun _ => 1) (counter_irq 0 armed_state)).ignore_irq 0 = 1 ∧
    (counter_poll (fun _ => 1) (counter_irq 0 armed_state)).last_value 0 = 1 ∧
    (counter_poll (fun _ => 1) (counter_irq 0 armed_state)).rtc_wakeup = false := by
  decide

/-! ## Publish scheduler and command handler: properties -/

theorem set_period_of_valid (p : Platform) (s : State) (q : Nat) (h1 : 1 ≤ q)
    (h2 : q ≤ UMDK_COUNTER_PUBLISH_PERIOD_MAX) :
    (set_period p (q : Int) s).1 = 1 ∧
    (set_period p (q : Int) s).2.conf_counter.publish_period = q := by
  simp only [UMDK_COUNTER_PUBLISH_PERIOD_MAX] at h2
  have h : ¬ ((q : Int) = 0 ∨ (q : Int) > ((UMDK_COUNTER_PUBLISH_PERIOD_MAX : Nat) : Int)) := by
    simp only [UMDK_COUNTER_PUBLISH_PERIOD_MAX]; omega
  have e : ((q : Int) % 256).toNat = q := by omega
  simp only [set_period, if_neg h, e, save_config]
  exact ⟨trivial, trivial⟩

theorem set_period_of_invalid (p : Platform) (s : State) (q : Nat)
    (h : ¬ (1 ≤ q ∧ q ≤ UMDK_COUNTER_PUBLISH_PERIOD_MAX)) :
    set_period p (q : Int) s = (0, s) := by
  have h : (q : Int) = 0 ∨ (q : Int) > ((UMDK_COUNTER_PUBLISH_PERIOD_MAX : Nat) : Int) := by
    simp only [UMDK_COUNTER_PUBLISH_PERIOD_MAX] at h ⊢; omega
  simp only [set_period, if_pos h]

theorem bytes_of_length_two (d : module_data_t) (h : d.length = 2) :
    d.bytes = [d.data 0, d.data 1] := by
  simp only [module_data_t.bytes, h]
  rfl

/-- C8: period boundary.  `set_period(0)` and `set_period(MAX + 1)` return 0 and leave
the whole state (configuration, written images, publish timer) unchanged; for every `q`
with `MIN ≤ q ≤ MAX`, `set_period(q)` returns 1, stores `publish_period = q`, marks the
configuration valid and writes it to NVRAM, and arms the publish timer with
`UMDK_COUNTER_VALUE_PERIOD_PER_SEC * q`. -/
theorem set_period_boundary (p : Platform) (s : State) (q : Nat)
    (hmin : UMDK_COUNTER_PUBLISH_PERIOD_MIN ≤ q)
    (hmax : q ≤ UMDK_COUNTER_PUBLISH_PERIOD_MAX) :
    set_period p 0 s = (0, s) ∧
    set_period p ((UMDK_COUNTER_PUBLISH_PERIOD_MAX : Int) + 1) s = (0, s) ∧
    set_period p (q : Int) s =
      (1, { s with
              conf_counter :=
                { is_valid := 1
                  count_value := s.conf_counter.count_value
                  publish_period := q }
              nvram_writes :=
                { is_valid := 1
                  count_value := s.conf_counter.count_value
                  publish_period := q } :: s.nvram_writes
              publishing_timer := some (p.period_per_sec * q) }) := by
  simp only [UMDK_COUNTER_PUBLISH_PERIOD_MIN, UMDK_COUNTER_PUBLISH_PERIOD_MAX] at hmin hmax
  refine ⟨by simp [set_period], by simp [set_period, UMDK_COUNTER_PUBLISH_PERIOD_MAX], ?_⟩
  have h1 : ¬ ((q : Int) = 0 ∨ (q : Int) > ((UMDK_COUNTER_PUBLISH_PERIOD_MAX : Nat) : Int)) := by
    simp only [UMDK_COUNTER_PUBLISH_PERIOD_MAX]; omega
  have h2 : ((q : Int) % 256).toNat = q := by omega
  simp only [set_period, if_neg h1, h2, save_config]

/-- Witness of C8 at `q = MIN` and at `q = MAX`. -/
theorem set_period_boundary_witness :
    (UMDK_COUNTER_PUBLISH_PERIOD_MIN ≤ UMDK_COUNTER_PUBLISH_PERIOD_MIN ∧
      UMDK_COUNTER_PUBLISH_PERIOD_MIN ≤ UMDK_COUNTER_PUBLISH_PERIOD_MAX) ∧
    (set_period sample_platform (UMDK_COUNTER_PUBLISH_PERIOD_MIN : Int) armed_state).1 = 1 ∧
    (set_period sample_platform (UMDK_COUNTER_PUBLISH_PERIOD_MAX : Int) armed_state).1 = 1 ∧
    (set_period sample_platform
      (UMDK_COUNTER_PUBLISH_PERIOD_MAX : Int) armed_state).2.conf_counter.publish_period =
        UMDK_COUNTER_PUBLISH_PERIOD_MAX :=
  ⟨⟨by decide, by decide⟩,
   by
    rw [(set_period_boundary sample_platform armed_state UMDK_COUNTER_PUBLISH_PERIOD_MIN
      (by decide) (by decide)).2.2],
   by
    rw [(set_period_boundary sample_platform armed_state UMDK_COUNTER_PUBLISH_PERIOD_MAX
      (by decide) (by decide)).2.2],
   by
    rw [(set_period_boundary sample_platform armed_state UMDK_COUNTER_PUBLISH_PERIOD_MAX
      (by decide) (by decide)).2.2]⟩


/-- C9: the SET_PERIOD command.  For a command buffer whose first byte is the
SET_PERIOD opcode, `umdk_counter_cmd` allows a reply exactly when the buffer length
is 2.  With any other length the reply buffer and the state are unchanged.  With
length 2 the reply is the two bytes `[module_id, status]`: when the period byte is
between 1 and MAX the status is 0, the state is that of `set_period` and
`publish_period` becomes the period byte; otherwise the status is 253 and the state is
unchanged. -/
theorem set_period_cmd (p : Platform) (cmd reply : module_data_t) (s : State)
    (hop : cmd.data 0 = UMDK_COUNTER_CMD_SET_PERIOD) (hbyte : cmd.data 1 < 2 ^ 8) :
    ((umdk_counter_cmd p cmd reply s).1 = true ↔ cmd.length = 2) ∧
    (cmd.length ≠ 2 → umdk_counter_cmd p cmd reply s = (false, reply, s)) ∧
    (cmd.length = 2 →
      (umdk_counter_cmd p cmd reply s).2.1.length = 2 ∧
      (1 ≤ cmd.data 1 ∧ cmd.data 1 ≤ UMDK_COUNTER_PUBLISH_PERIOD_MAX →
        (umdk_counter_cmd p cmd reply s).2.1.bytes = [u8 p.module_id, 0] ∧
        (umdk_counter_cmd p cmd reply s).2.2 = (set_period p (cmd.data 1 : Int) s).2 ∧
        (umdk_counter_cmd p cmd reply s).2.2.conf_counter.publish_period = cmd.data 1) ∧
      (¬ (1 ≤ cmd.data 1 ∧ cmd.data 1 ≤ UMDK_COUNTER_PUBLISH_PERIOD_MAX) →
        (umdk_counter_cmd p cmd reply s).2.1.bytes = [u8 p.module_id, 253] ∧
        (umdk_counter_cmd p cmd reply s).2.2 = s)) := by
  have hu : u8 (cmd.data 1) = cmd.data 1 := Nat.mod_eq_of_lt hbyte
  have hlen2 : cmd.length = 2 → ¬ cmd.length < 1 := by omega
  refine ⟨?_, ?_, ?_⟩
  · by_cases h0 : cmd.length < 1
    · simp only [umdk_counter_cmd, if_pos h0]
      constructor
      · intro h; cases h
      · intro h; omega
    · by_cases h2 : cmd.length = 2
      · by_cases hv : (set_period p (cmd.data 1 : Int) s).1 = 0 <;>
          simp [umdk_counter_cmd, h0, hop, h2, hu, hv]
      · simp [umdk_counter_cmd, h0, hop, h2]
  · intro h2
    by_cases h0 : cmd.length < 1
    · simp only [umdk_counter_cmd, if_pos h0]
    · simp only [umdk_counter_cmd, if_neg h0, if_pos hop, if_pos h2]
  · intro h2
    have h0 := hlen2 h2
    refine ⟨?_, ?_, ?_⟩
    · by_cases hv : (set_period p (cmd.data 1 : Int) s).1 = 0 <;>
        simp [umdk_counter_cmd, h0, hop, h2, hu, hv]
    · intro hq
      have hs := set_period_of_valid p s (cmd.data 1) hq.1 hq.2
      have hv : ¬ (set_period p (cmd.data 1 : Int) s).1 = 0 := by rw [hs.1]; decide
      have e : umdk_counter_cmd p cmd reply s =
          (true, { length := 2
                   data := Function.update
                     (Function.update reply.data 0 (u8 p.module_id)) 1 0 },
            (set_period p (cmd.data 1 : Int) s).2) := by
        simp [umdk_counter_cmd, h0, hop, h2, hu, hv]
      rw [e]
      refine ⟨?_, rfl, hs.2⟩
      rw [bytes_of_length_two _ rfl]
      simp [Function.update]
    · intro hq
      have hs := set_period_of_invalid p s (cmd.data 1) hq
      have e : umdk_counter_cmd p cmd reply s =
          (true, { length := 2
                   data := Function.update
                     (Function.update reply.data 0 (u8 p.module_id)) 1 253 }, s) := by
        simp [umdk_counter_cmd, h0, hop, h2, hu, hs]
      rw [e]
      refine ⟨?_, rfl⟩
      rw [bytes_of_length_two _ rfl]
      simp [Function.update]


/-- Witness of C9: SET_PERIOD(5) then SET_PERIOD(0); the second command is answered
with status 253 and leaves the state, with period 5, unchanged. -/
theorem set_period_cmd_witness :
    ((cmd_bytes [UMDK_COUNTER_CMD_SET_PERIOD, 0]).data 0 = UMDK_COUNTER_CMD_SET_PERIOD ∧
      (cmd_bytes [UMDK_COUNTER_CMD_SET_PERIOD, 0]).data 1 < 2 ^ 8) ∧
    period5_state.conf_counter.publish_period = 5 ∧
    (umdk_counter_cmd sample_platform (cmd_bytes [UMDK_COUNTER_CMD_SET_PERIOD, 0]) (filled 0)
      period5_state).2.1.bytes = [u8 sample_platform.module_id, 253] ∧
    (umdk_counter_cmd sample_platform (cmd_bytes [UMDK_COUNTER_CMD_SET_PERIOD, 0]) (filled 0)
      period5_state).2.2 = period5_state :=
  ⟨⟨by decide, by decide⟩, by decide,
   ((set_period_cmd sample_platform (cmd_bytes [UMDK_COUNTER_CMD_SET_PERIOD, 0]) (filled 0)
      period5_state (by decide) (by decide)).2.2 rfl).2.2 (by decide)⟩

/-- C10, as stated, fails: a POLL command carrying one payload byte (buffer length 2)
is not dropped; it posts a publish request to the handler thread. -/
theorem poll_with_payload_not_dropped :
    (cmd_bytes [UMDK_COUNTER_CMD_POLL, 7]).length = 2 ∧
    armed_state.msg_pending = 0 ∧
    (umdk_counter_cmd sample_platform (cmd_bytes [UMDK_COUNTER_CMD_POLL, 7]) (filled 0)
      armed_state).2.2.msg_pending = 1 := by
  decide

/-- C10, amended: a command whose opcode is POLL posts one publish request to the
handler thread whatever its payload, that is for every buffer length of at least 1; it
changes nothing else in the state, and no synchronous reply is produced (the function
returns `false` and leaves the reply buffer as it was). -/
theorem poll_cmd (p : Platform) (cmd reply : module_data_t) (s : State)
    (hop : cmd.data 0 = UMDK_COUNTER_CMD_POLL) (hlen : 1 ≤ cmd.length) :
    umdk_counter_cmd p cmd reply s =
      (false, reply, { s with msg_pending := s.msg_pending + 1 }) := by
  have h0 : ¬ cmd.length < 1 := by omega
  have h1 : ¬ cmd.data 0 = UMDK_COUNTER_CMD_SET_PERIOD := by
    rw [hop]; decide
  simp only [umdk_counter_cmd, if_neg h0, if_neg h1, if_pos hop]

/-- Witness of C10 amended, for a POLL command with one payload byte. -/
theorem poll_cmd_witness :
    ((cmd_bytes [UMDK_COUNTER_CMD_POLL, 7]).data 0 = UMDK_COUNTER_CMD_POLL ∧
      1 ≤ (cmd_bytes [UMDK_COUNTER_CMD_POLL, 7]).length) ∧
    umdk_counter_cmd sample_platform (cmd_bytes [UMDK_COUNTER_CMD_POLL, 7]) (filled 0)
      armed_state =
      (false, filled 0, { armed_state with msg_pending := armed_state.msg_pending + 1 }) :=
  ⟨⟨by decide, by decide⟩,
   poll_cmd sample_platform (cmd_bytes [UMDK_COUNTER_CMD_POLL, 7]) (filled 0) armed_state
     (by decide) (by decide)⟩

/-! ## Command handler: RESET and unknown commands -/

theorem zero_counts_frame (p : Platform) (c : conf_counter_t) (d : module_data_t)
    (hc : c.count_value = fun _ => 0) :
    (build_frame p c d).bytes.take 13 = u8 p.module_id :: List.replicate 12 0 := by
  have z0 : word0 (fun _ => 0) = 0 := by decide
  have z1 : word1 (fun _ => 0) = 0 := by decide
  have z2 : word2 (fun _ => 0) = 0 := by decide
  rw [bytes_take13, build_frame_eq, hc]
  simp [z0, z1, z2, store32_zero_apply, List.replicate]

theorem handler_body_emitted (p : Platform) (d : module_data_t) (t : State) :
    (handler_body p d t).emitted = build_frame p t.conf_counter d :: t.emitted := by
  simp only [handler_body, save_config]
  split_ifs <;> rfl

/-- C11: the RESET command.  For every state and every command buffer of length at
least 1 whose opcode is RESET, `umdk_counter_cmd` sets all four counters to 0, marks the
configuration valid and writes it to NVRAM, leaves `publish_period` and everything else
(debounce flags, stored levels, pins, timers, pending messages) unchanged, and allows
the reply `[module_id, 0]` of length 2; the frame a following worker iteration emits
is the module id followed by 12 zero bytes. -/
theorem reset_cmd (p : Platform) (cmd reply d : module_data_t) (s : State)
    (hop : cmd.data 0 = UMDK_COUNTER_CMD_RESET) (hlen : 1 ≤ cmd.length) :
    (umdk_counter_cmd p cmd reply s).1 = true ∧
    (umdk_counter_cmd p cmd reply s).2.1.length = 2 ∧
    (umdk_counter_cmd p cmd reply s).2.1.bytes = [u8 p.module_id, 0] ∧
    (umdk_counter_cmd p cmd reply s).2.2 =
      { s with
          conf_counter :=
            { is_valid := 1
              count_value := fun _ => 0
              publish_period := s.conf_counter.publish_period }
          nvram_writes :=
            { is_valid := 1
              count_value := fun _ => 0
              publish_period := s.conf_counter.publish_period } :: s.nvram_writes } ∧
    ((handler_body p d (umdk_counter_cmd p cmd reply s).2.2).emitted.head?.map
        (fun f => f.bytes.take 13)) = some (u8 p.module_id :: List.replicate 12 0) := by
  have h0 : ¬ cmd.length < 1 := by omega
  have h1 : ¬ cmd.data 0 = UMDK_COUNTER_CMD_SET_PERIOD := by rw [hop]; decide
  have h2 : ¬ cmd.data 0 = UMDK_COUNTER_CMD_POLL := by rw [hop]; decide
  have e : umdk_counter_cmd p cmd reply s =
      (true, { length := 2
               data := Function.update (Function.update reply.data 0 (u8 p.module_id)) 1 0 },
        { s with
          conf_counter :=
            { is_valid := 1
              count_value := fun _ => 0
              publish_period := s.conf_counter.publish_period }
          nvram_writes :=
            { is_valid := 1
              count_value := fun _ => 0
              publish_period := s.conf_counter.publish_period } :: s.nvram_writes }) := by
    simp only [umdk_counter_cmd, if_neg h0, if_neg h1, if_neg h2, if_pos hop, save_config]
  rw [e]
  refine ⟨rfl, rfl, ?_, rfl, ?_⟩
  · rw [bytes_of_length_two _ rfl]
    simp [Function.update]
  · have hf : ∀ t : State, (handler_body p d t).emitted.head?.map
        (fun f => f.bytes.take 13) = some ((build_frame p t.conf_counter d).bytes.take 13) := by
      intro t
      rw [handler_body_emitted]
      rfl
    rw [hf]
    exact congrArg some (zero_counts_frame p _ d rfl)

/-- Witness of C11: RESET after three edges on channel 0 and one on channel 1. -/
theorem reset_cmd_witness :
    ((cmd_bytes [UMDK_COUNTER_CMD_RESET]).data 0 = UMDK_COUNTER_CMD_RESET ∧
      1 ≤ (cmd_bytes [UMDK_COUNTER_CMD_RESET]).length) ∧
    (umdk_counter_cmd sample_platform (cmd_bytes [UMDK_COUNTER_CMD_RESET]) (filled 0)
      (counter_irq 1 (counter_irq 0 armed_state))).2.1.bytes =
        [u8 sample_platform.module_id, 0] :=
  ⟨⟨by decide, by decide⟩,
   (reset_cmd sample_platform (cmd_bytes [UMDK_COUNTER_CMD_RESET]) (filled 0) (filled 0)
      (counter_irq 1 (counter_irq 0 armed_state)) (by decide) (by decide)).2.2.1⟩

/-- C12: unknown or empty command.  For a command buffer that is empty, or whose
opcode is none of SET_PERIOD, POLL and RESET, `umdk_counter_cmd` returns `false` (no
reply), leaves the reply buffer as it was and returns the state unchanged: no
configuration or debounce change, nothing written to NVRAM, no message posted. -/
theorem unknown_cmd (p : Platform) (cmd reply : module_data_t) (s : State)
    (h : cmd.length = 0 ∨
      (cmd.data 0 ≠ UMDK_COUNTER_CMD_SET_PERIOD ∧ cmd.data 0 ≠ UMDK_COUNTER_CMD_POLL ∧
        cmd.data 0 ≠ UMDK_COUNTER_CMD_RESET)) :
    umdk_counter_cmd p cmd reply s = (false, reply, s) := by
  by_cases h0 : cmd.length < 1
  · simp only [umdk_counter_cmd, if_pos h0]
  · rcases h with h | ⟨h1, h2, h3⟩
    · omega
    · simp only [umdk_counter_cmd, if_neg h0, if_neg h1, if_neg h2, if_neg h3]

/-- Witness of C12: the unknown opcode 9 with a payload byte. -/
theorem unknown_cmd_witness :
    ((cmd_bytes [9, 1]).length = 0 ∨
      ((cmd_bytes [9, 1]).data 0 ≠ UMDK_COUNTER_CMD_SET_PERIOD ∧
        (cmd_bytes [9, 1]).data 0 ≠ UMDK_COUNTER_CMD_POLL ∧
        (cmd_bytes [9, 1]).data 0 ≠ UMDK_COUNTER_CMD_RESET)) ∧
    umdk_counter_cmd sample_platform (cmd_bytes [9, 1]) (filled 0) armed_state =
      (false, filled 0, armed_state) :=
  ⟨by decide, unknown_cmd sample_platform (cmd_bytes [9, 1]) (filled 0) armed_state (by decide)⟩

/-! ## Initialisation: closed forms -/

theorem init_channels (s : State) :
    channels.foldl (fun (a : State) i =>
      { a with
          pin_mode := Function.update a.pin_mode i gpio_mode_t.GPIO_IN_PU
          irq_enabled := Function.update a.irq_enabled i true
          ignore_irq := Function.update a.ignore_irq i 0 }) s =
      { s with
          pin_mode := fun _ => gpio_mode_t.GPIO_IN_PU
          irq_enabled := fun _ => true
          ignore_irq := fun _ => 0 } := by
  have h1 : ∀ f : Chan → gpio_mode_t,
      Function.update (Function.update (Function.update (Function.update f 0
        gpio_mode_t.GPIO_IN_PU) 1 gpio_mode_t.GPIO_IN_PU) 2 gpio_mode_t.GPIO_IN_PU) 3
        gpio_mode_t.GPIO_IN_PU = fun _ => gpio_mode_t.GPIO_IN_PU := by
    intro f; funext k; revert k; apply chan_cases <;> simp [Function.update]
  have h2 : ∀ f : Chan → Bool,
      Function.update (Function.update (Function.update (Function.update f 0 true) 1 true)
        2 true) 3 true = fun _ => true := by
    intro f; funext k; revert k; apply chan_cases <;> simp [Function.update]
  have h3 : ∀ f : Chan → Nat,
      Function.update (Function.update (Function.update (Function.update f 0 0) 1 0)
        2 0) 3 0 = fun _ => 0 := by
    intro f; funext k; revert k; apply chan_cases <;> simp [Function.update]
  simp only [channels, List.foldl_cons, List.foldl_nil, h1, h2, h3]

/-- Closed form of `umdk_counter_init` when the stack is allocated and the NVRAM read
succeeds with image `img`. -/
theorem init_of_image (p : Platform) (img : conf_counter_t) (s : State) :
    umdk_counter_init p true (some img) s =
      { s with
          conf_counter :=
            if img.is_valid = 0xFF ∨ img.is_valid = 0 then
              { is_valid := 0
                count_value := fun _ => 0
                publish_period := UMDK_COUNTER_PUBLISH_PERIOD_MIN }
            else img
          pin_mode := fun _ => gpio_mode_t.GPIO_IN_PU
          irq_enabled := fun _ => true
          ignore_irq := fun _ => 0
          btn_irq_enabled := true
          shell_registered := true
          thread_created := true
          publishing_timer := some (p.period_per_sec *
            (if img.is_valid = 0xFF ∨ img.is_valid = 0 then UMDK_COUNTER_PUBLISH_PERIOD_MIN
             else img.publish_period)) } := by
  simp only [umdk_counter_init, init_channels]
  by_cases h : img.is_valid = 0xFF ∨ img.is_valid = 0
  · simp [h, reset_config]
  · simp [h]

/-- Closed form of `umdk_counter_init` when `allocate_stack` fails or the NVRAM read
fails: the function returns before the worker is created. -/
theorem init_of_failure (p : Platform) (stack_ok : Bool) (image : Option conf_counter_t)
    (s : State) (h : stack_ok = false ∨ image = none) :
    umdk_counter_init p stack_ok image s =
      { s with
          conf_counter :=
            { s.conf_counter with publish_period := UMDK_COUNTER_PUBLISH_PERIOD_MIN }
          pin_mode := fun _ => gpio_mode_t.GPIO_IN_PU
          irq_enabled := fun _ => true
          ignore_irq := fun _ => 0
          btn_irq_enabled := true } := by
  simp only [umdk_counter_init, init_channels]
  rcases h with h | h
  · simp [h]
  · subst h
    cases stack_ok <;> simp

/-! ## Initialisation: recovery of the configuration -/

/-- C13, as stated, fails.  When the NVRAM read fails, `umdk_counter_init` returns
before creating the worker and starting the publish timer, and writes nothing; when
the image is the erased one (`is_valid = 0xFF`) the defaults are set but nothing is
written to NVRAM by `umdk_counter_init`. -/
theorem init_recovery_counterexample :
    (umdk_counter_init sample_platform true none boot_state).thread_created = false ∧
    (umdk_counter_init sample_platform true none boot_state).publishing_timer = none ∧
    (umdk_counter_init sample_platform true none boot_state).nvram_writes.length = 0 ∧
    (umdk_counter_init sample_platform true (some erased_image) boot_state).nvram_writes.length
      = 0 := by
  decide

/-- C13, amended.  If the loaded image has `is_valid == 0` or `is_valid == 0xFF`, then
after `umdk_counter_init` the configuration holds the defaults (all counters 0,
`publish_period = MIN`) with `is_valid = 0`, nothing has been written to NVRAM by the
initialisation, the worker is created and the publish timer is armed for `MIN` period
units; a following POLL command lets one worker iteration run, which emits the module
id followed by 12 zero bytes and writes the defaults, now marked valid, to NVRAM.  If the
read fails (or the stack cannot be allocated) the function returns early:
`publish_period = MIN`, the counters are left as they were, and no worker, no timer and
no NVRAM write result. -/
theorem init_recovery (p : Platform) (img : conf_counter_t) (s0 : State)
    (d reply : module_data_t) (hinv : img.is_valid = 0 ∨ img.is_valid = 0xFF) :
    ((umdk_counter_init p true (some img) s0).conf_counter.is_valid = 0 ∧
      (umdk_counter_init p true (some img) s0).conf_counter.count_value = (fun _ => 0) ∧
      (umdk_counter_init p true (some img) s0).conf_counter.publish_period =
        UMDK_COUNTER_PUBLISH_PERIOD_MIN) ∧
    (umdk_counter_init p true (some img) s0).nvram_writes = s0.nvram_writes ∧
    (umdk_counter_init p true (some img) s0).thread_created = true ∧
    (umdk_counter_init p true (some img) s0).publishing_timer =
      some (p.period_per_sec * UMDK_COUNTER_PUBLISH_PERIOD_MIN) ∧
    (∃ u, handler_step p d (umdk_counter_cmd p (cmd_bytes [UMDK_COUNTER_CMD_POLL]) reply
          (umdk_counter_init p true (some img) s0)).2.2 = some u ∧
        u.emitted.head?.map (fun f => f.bytes.take 13) =
          some (u8 p.module_id :: List.replicate 12 0) ∧
        u.nvram_writes =
          { is_valid := 1
            count_value := fun _ => 0
            publish_period := UMDK_COUNTER_PUBLISH_PERIOD_MIN } :: s0.nvram_writes) ∧
    (∀ stack_ok : Bool,
      (umdk_counter_init p stack_ok none s0).conf_counter.publish_period =
        UMDK_COUNTER_PUBLISH_PERIOD_MIN ∧
      (umdk_counter_init p stack_ok none s0).conf_counter.count_value =
        s0.conf_counter.count_value ∧
      (umdk_counter_init p stack_ok none s0).thread_created = s0.thread_created ∧
      (umdk_counter_init p stack_ok none s0).publishing_timer = s0.publishing_timer ∧
      (umdk_counter_init p stack_ok none s0).nvram_writes = s0.nvram_writes) := by
  have hv : img.is_valid = 0xFF ∨ img.is_valid = 0 := hinv.symm
  have hpoll : ∀ t : State,
      (umdk_counter_cmd p (cmd_bytes [UMDK_COUNTER_CMD_POLL]) reply t).2.2 =
        { t with msg_pending := t.msg_pending + 1 } := by
    intro t
    have h0 : ¬ (cmd_bytes [UMDK_COUNTER_CMD_POLL]).length < 1 := by decide
    have h1 : ¬ (cmd_bytes [UMDK_COUNTER_CMD_POLL]).data 0 = UMDK_COUNTER_CMD_SET_PERIOD := by
      decide
    have h2 : (cmd_bytes [UMDK_COUNTER_CMD_POLL]).data 0 = UMDK_COUNTER_CMD_POLL := rfl
    simp only [umdk_counter_cmd, if_neg h0, if_neg h1, if_pos h2]
  refine ⟨?_, ?_, ?_, ?_, ?_, ?_⟩
  · rw [init_of_image]; simp [hv]
  · rw [init_of_image]
  · rw [init_of_image]
  · rw [init_of_image]; simp [hv]
  · rw [hpoll, init_of_image]
    simp only [handler_step, if_pos hv]
    rw [if_neg (by omega)]
    refine ⟨_, rfl, ?_, ?_⟩
    · rw [handler_body_emitted]
      exact congrArg some (zero_counts_frame p _ d rfl)
    · simp only [handler_body, save_config]
      split_ifs <;> rfl
  · intro stack_ok
    rw [init_of_failure p stack_ok none s0 (Or.inr rfl)]
    exact ⟨rfl, rfl, rfl, rfl, rfl⟩

/-- Witness of C13 amended, on the erased image. -/
theorem init_recovery_witness :
    (erased_image.is_valid = 0 ∨ erased_image.is_valid = 0xFF) ∧
    (umdk_counter_init sample_platform true (some erased_image) boot_state).thread_created
      = true ∧
    (umdk_counter_init sample_platform true (some erased_image)
      boot_state).conf_counter.publish_period = UMDK_COUNTER_PUBLISH_PERIOD_MIN :=
  ⟨by decide,
   (init_recovery sample_platform erased_image boot_state (filled 0) (filled 0)
      (by decide)).2.2.1,
   (init_recovery sample_platform erased_image boot_state (filled 0) (filled 0)
      (by decide)).1.2.2⟩

/-! ## The publish period stays in range -/

theorem counter_irq_conf (i : Chan) (s : State) :
    (counter_irq i s).conf_counter.publish_period = s.conf_counter.publish_period ∧
    (counter_irq i s).conf_counter.is_valid = s.conf_counter.is_valid ∧
    (counter_irq i s).nvram_writes = s.nvram_writes := by
  simp only [counter_irq]
  split_ifs <;> exact ⟨rfl, rfl, rfl⟩

theorem counter_poll_conf (levels : Chan → Nat) (s : State) :
    (counter_poll levels s).conf_counter = s.conf_counter := by
  rw [← (poll_loop_rest levels s).1]
  simp only [counter_poll]
  split_ifs <;> rfl

theorem handler_body_conf (p : Platform) (d : module_data_t) (s : State) :
    (handler_body p d s).conf_counter = { s.conf_counter with is_valid := 1 } := by
  simp only [handler_body, save_config]
  split_ifs <;> rfl

theorem set_period_in_range (p : Platform) (n : Int) (s : State) (hn : 0 ≤ n)
    (h : period_in_range s.conf_counter) :
    period_in_range (set_period p n s).2.conf_counter := by
  by_cases hg : n = 0 ∨ n > (UMDK_COUNTER_PUBLISH_PERIOD_MAX : Int)
  · simp only [set_period, if_pos hg]; exact h
  · simp only [set_period, if_neg hg, save_config, period_in_range]
    simp only [UMDK_COUNTER_PUBLISH_PERIOD_MAX, UMDK_COUNTER_PUBLISH_PERIOD_MIN] at hg ⊢
    omega

theorem cmd_in_range (p : Platform) (cmd reply : module_data_t) (s : State)
    (h : period_in_range s.conf_counter) :
    period_in_range (umdk_counter_cmd p cmd reply s).2.2.conf_counter := by
  have hs := set_period_in_range p ((u8 (cmd.data 1) : Nat) : Int) s (Int.ofNat_nonneg _) h
  simp only [umdk_counter_cmd]
  split_ifs <;> first | exact h | exact hs

theorem shell_in_range (p : Platform) (argc : Nat) (cmd : String) (val : Int) (s : State)
    (hv : 0 ≤ val) (h : period_in_range s.conf_counter) :
    period_in_range (umdk_counter_shell_cmd p argc cmd val s).2.conf_counter := by
  have hmin : period_in_range
      { is_valid := 1, count_value := fun _ => 0,
        publish_period := UMDK_COUNTER_PUBLISH_PERIOD_MIN } := by
    simp only [period_in_range]; decide
  simp only [umdk_counter_shell_cmd]
  split_ifs <;>
    first
    | exact h
    | exact hmin
    | exact set_period_in_range p val _ hv h

theorem step_in_range (p : Platform) (e : Event) (s : State) (he : e.arg_nonneg)
    (h : period_in_range s.conf_counter) : period_in_range (step p e s).conf_counter := by
  cases e with
  | edge i =>
    have := counter_irq_conf i s
    simp only [step, period_in_range] at h ⊢
    rw [this.1]; exact h
  | poll levels =>
    simp only [step, counter_poll_conf]; exact h
  | publish d =>
    simp only [step, handler_body_conf]; exact h
  | command cmd reply => exact cmd_in_range p cmd reply s h
  | console argc cmd val => exact shell_in_range p argc cmd val s he h
  | button => exact h

theorem run_in_range (p : Platform) (es : List Event) :
    ∀ s : State, (∀ e ∈ es, e.arg_nonneg) → period_in_range s.conf_counter →
      period_in_range (run p es s).conf_counter := by
  induction es with
  | nil => intro s _ h; exact h
  | cons e es ih =>
    intro s he h
    simp only [run, List.foldl_cons]
    exact ih (step p e s) (fun e2 h2 => he e2 (List.mem_cons_of_mem _ h2))
      (step_in_range p e s (he e (List.mem_cons_self _ _)) h)

theorem init_in_range (p : Platform) (stack_ok : Bool) (image : Option conf_counter_t)
    (s0 : State)
    (himg : ∀ img, image = some img →
      img.is_valid = 0 ∨ img.is_valid = 0xFF ∨ period_in_range img) :
    period_in_range (umdk_counter_init p stack_ok image s0).conf_counter := by
  have hmin : UMDK_COUNTER_PUBLISH_PERIOD_MIN ≤ UMDK_COUNTER_PUBLISH_PERIOD_MIN ∧
      UMDK_COUNTER_PUBLISH_PERIOD_MIN ≤ UMDK_COUNTER_PUBLISH_PERIOD_MAX := by decide
  cases hs : stack_ok with
  | false => rw [init_of_failure p false image s0 (Or.inl rfl)]; exact hmin
  | true =>
    cases hi : image with
    | none => rw [init_of_failure p true none s0 (Or.inr rfl)]; exact hmin
    | some img =>
      rw [init_of_image]
      by_cases hv : img.is_valid = 0xFF ∨ img.is_valid = 0
      · simp only [if_pos hv]; exact hmin
      · simp only [if_neg hv]
        rcases himg img hi with h | h | h
        · exact absurd (Or.inr h) hv
        · exact absurd (Or.inl h) hv
        · exact h

/-- C14, as stated, fails in two ways.  An image marked valid whose period is 200 is
kept by `umdk_counter_init`, so the state after initialisation is valid with a period
above `MAX`; and the console line `period -1` passes the guard of `set_period`, which
stores the byte 255 and marks the configuration valid. -/
theorem period_range_counterexample :
    ((umdk_counter_init sample_platform true (some long_period_image)
        boot_state).conf_counter.is_valid = 1 ∧
      (umdk_counter_init sample_platform true (some long_period_image)
        boot_state).conf_counter.publish_period = 200 ∧
      ¬ 200 ≤ UMDK_COUNTER_PUBLISH_PERIOD_MAX) ∧
    ((step sample_platform (Event.console 3 "period" (-1))
        armed_state).conf_counter.is_valid = 1 ∧
      (step sample_platform (Event.console 3 "period" (-1))
        armed_state).conf_counter.publish_period = 255 ∧
      ¬ 255 ≤ UMDK_COUNTER_PUBLISH_PERIOD_MAX) := by
  decide

/-- C14, amended.  Start from `umdk_counter_init` with a persisted image that fails to
load, is marked invalid (`is_valid` 0 or `0xFF`) or carries a period within
`[MIN, MAX]`; then after any sequence of edges, polls, publishes, commands (SET_PERIOD
with any byte, POLL, RESET, unknown), button presses and console lines whose
`period` argument is not negative, `MIN ≤ publish_period ≤ MAX` holds, whether or not
the configuration is marked valid. -/
theorem period_range_invariant (p : Platform) (stack_ok : Bool)
    (image : Option conf_counter_t) (s0 : State) (es : List Event)
    (himg : ∀ img, image = some img →
      img.is_valid = 0 ∨ img.is_valid = 0xFF ∨ period_in_range img)
    (hes : ∀ e ∈ es, e.arg_nonneg) :
    period_in_range (run p es (umdk_counter_init p stack_ok image s0)).conf_counter :=
  run_in_range p es _ hes (init_in_range p stack_ok image s0 himg)

/-- Witness of C14 amended: erased image, then `period 7` on the console, an edge, a
SET_PERIOD(0) command, a RESET command and a publish. -/
theorem period_range_invariant_witness :
    (∀ img, some erased_image = some img →
      img.is_valid = 0 ∨ img.is_valid = 0xFF ∨ period_in_range img) ∧
    (∀ e ∈ [Event.console 3 "period" 7, Event.edge 0,
        Event.command (cmd_bytes [UMDK_COUNTER_CMD_SET_PERIOD, 0]) (filled 0),
        Event.command (cmd_bytes [UMDK_COUNTER_CMD_RESET]) (filled 0),
        Event.publish (filled 0)], e.arg_nonneg) ∧
    period_in_range (run sample_platform
      [Event.console 3 "period" 7, Event.edge 0,
        Event.command (cmd_bytes [UMDK_COUNTER_CMD_SET_PERIOD, 0]) (filled 0),
        Event.command (cmd_bytes [UMDK_COUNTER_CMD_RESET]) (filled 0),
        Event.publish (filled 0)]
      (umdk_counter_init sample_platform true (some erased_image) boot_state)).conf_counter :=
  have h1 : ∀ img, some erased_image = some img →
      img.is_valid = 0 ∨ img.is_valid = 0xFF ∨ period_in_range img := by
    intro img h
    cases h
    exact Or.inr (Or.inl rfl)
  have h2 : ∀ e ∈ [Event.console 3 "period" 7, Event.edge 0,
      Event.command (cmd_bytes [UMDK_COUNTER_CMD_SET_PERIOD, 0]) (filled 0),
      Event.command (cmd_bytes [UMDK_COUNTER_CMD_RESET]) (filled 0),
      Event.publish (filled 0)], e.arg_nonneg := by
    intro e he
    simp only [List.mem_cons, List.mem_singleton, List.not_mem_nil, or_false] at he
    rcases he with rfl | rfl | rfl | rfl | rfl <;> simp [Event.arg_nonneg]
  ⟨h1, h2, period_range_invariant sample_platform true (some erased_image) boot_state _ h1 h2⟩

/-! ## Edge, poll and publish steps -/

/-- C15: accepted edge.  In a state where channel `i` is armed (`ignore_irq[i] == 0`),
`counter_irq` for channel `i` marks the channel settling, disables its interrupt, puts
its pin in analog (high-impedance) mode, sets `count_value[i]` to its successor modulo
2^32, sets `last_value[i] = 0` and schedules the RTC wakeup; it writes nothing to
NVRAM, posts nothing and leaves `publish_period`, `is_valid` and, for every other
channel, the counter, the settling flag, the stored level, the pin mode and the
interrupt enable unchanged. -/
theorem accepted_edge (i : Chan) (s : State) (h : s.ignore_irq i = 0) :
    ((counter_irq i s).ignore_irq i = 1 ∧
      (counter_irq i s).irq_enabled i = false ∧
      (counter_irq i s).pin_mode i = gpio_mode_t.GPIO_AIN ∧
      (counter_irq i s).conf_counter.count_value i =
        (s.conf_counter.count_value i + 1) % 2 ^ 32 ∧
      (counter_irq i s).last_value i = 0 ∧
      (counter_irq i s).rtc_wakeup = true) ∧
    ((counter_irq i s).nvram_writes = s.nvram_writes ∧
      (counter_irq i s).msg_pending = s.msg_pending ∧
      (counter_irq i s).emitted = s.emitted ∧
      (counter_irq i s).publishing_timer = s.publishing_timer ∧
      (counter_irq i s).conf_counter.publish_period = s.conf_counter.publish_period ∧
      (counter_irq i s).conf_counter.is_valid = s.conf_counter.is_valid) ∧
    (∀ j, j ≠ i →
      (counter_irq i s).conf_counter.count_value j = s.conf_counter.count_value j ∧
      (counter_irq i s).ignore_irq j = s.ignore_irq j ∧
      (counter_irq i s).last_value j = s.last_value j ∧
      (counter_irq i s).pin_mode j = s.pin_mode j ∧
      (counter_irq i s).irq_enabled j = s.irq_enabled j) := by
  have hn : ¬ s.ignore_irq i ≠ 0 := by simp [h]
  simp only [counter_irq, if_neg hn]
  refine ⟨by simp [u32], by simp, ?_⟩
  intro j hj
  simp [Function.update_noteq hj]

/-- Witness of C15: an edge on channel 2 of the state with every channel armed. -/
theorem accepted_edge_witness :
    armed_state.ignore_irq 2 = 0 ∧
    (counter_irq 2 armed_state).ignore_irq 2 = 1 ∧
    (counter_irq 2 armed_state).conf_counter.count_value 2 = 1 :=
  ⟨by decide, (accepted_edge 2 armed_state (by decide)).1.1,
   ((accepted_edge 2 armed_state (by decide)).1.2.2.2.1).trans (by decide)⟩

theorem counter_poll_fields (levels : Chan → Nat) (s : State) :
    (counter_poll levels s).ignore_irq = (poll_loop levels s).1.ignore_irq ∧
    (counter_poll levels s).last_value = (poll_loop levels s).1.last_value ∧
    (counter_poll levels s).pin_mode = (poll_loop levels s).1.pin_mode ∧
    (counter_poll levels s).irq_enabled = (poll_loop levels s).1.irq_enabled := by
  simp only [counter_poll]
  split_ifs <;> exact ⟨rfl, rfl, rfl, rfl⟩

/-- C16: the poll transition function.  For sampled levels that fit a byte,
`counter_poll` leaves the configuration (all counters, `publish_period`) and every armed
channel unchanged; for a settling channel `k` with sampled level `v`: if `v` equals the
stored level and is nonzero, the channel becomes armed with its interrupt enabled and
its pin in input-with-pull mode; if `v` equals the stored level and is zero, the channel
stays settling with the stored level unchanged; if `v` differs from the stored level,
the channel stays settling and the stored level becomes `v`. -/
theorem poll_transition (levels : Chan → Nat) (s : State) (hv : ∀ k, levels k < 2 ^ 8) :
    (counter_poll levels s).conf_counter = s.conf_counter ∧
    ∀ k,
      (s.ignore_irq k = 0 →
        (counter_poll levels s).ignore_irq k = 0 ∧
        (counter_poll levels s).last_value k = s.last_value k ∧
        (counter_poll levels s).pin_mode k = s.pin_mode k ∧
        (counter_poll levels s).irq_enabled k = s.irq_enabled k) ∧
      (s.ignore_irq k ≠ 0 →
        (levels k = s.last_value k ∧ levels k ≠ 0 →
          (counter_poll levels s).ignore_irq k = 0 ∧
          (counter_poll levels s).irq_enabled k = true ∧
          (counter_poll levels s).pin_mode k = gpio_mode_t.GPIO_IN_PU ∧
          (counter_poll levels s).last_value k = s.last_value k) ∧
        (levels k = s.last_value k ∧ levels k = 0 →
          (counter_poll levels s).ignore_irq k = s.ignore_irq k ∧
          (counter_poll levels s).last_value k = s.last_value k ∧
          (counter_poll levels s).irq_enabled k = s.irq_enabled k ∧
          (counter_poll levels s).pin_mode k = gpio_mode_t.GPIO_AIN) ∧
        (levels k ≠ s.last_value k →
          (counter_poll levels s).ignore_irq k = s.ignore_irq k ∧
          (counter_poll levels s).last_value k = levels k ∧
          (counter_poll levels s).irq_enabled k = s.irq_enabled k ∧
          (counter_poll levels s).pin_mode k = gpio_mode_t.GPIO_AIN)) := by
  refine ⟨counter_poll_conf levels s, ?_⟩
  intro k
  have hf := counter_poll_fields levels s
  have hu : u8 (levels k) = levels k := Nat.mod_eq_of_lt (hv k)
  rw [hf.1, hf.2.1, hf.2.2.1, hf.2.2.2, poll_loop_ignore_irq, poll_loop_last_value,
    poll_loop_pin_mode, poll_loop_irq_enabled, hu]
  refine ⟨?_, ?_⟩
  · intro h0
    simp [h0]
  · intro h1
    refine ⟨?_, ?_, ?_⟩
    · rintro ⟨h2, h3⟩
      have h2b : s.last_value k = levels k := h2.symm
      simp [h1, h2b, h3]
    · rintro ⟨h2, h3⟩
      have h2b : s.last_value k = levels k := h2.symm
      simp [h1, h2b, h3]
    · intro h2
      simp [h1, h2]

/-- Witness of C16: channel 0 settling after an edge, sampled high twice; the first
pass stores the level, the second arms the channel again. -/
theorem poll_transition_witness :
    (∀ k, (fun _ : Chan => 1) k < 2 ^ 8) ∧
    (counter_poll (fun _ => 1) (counter_irq 0 armed_state)).last_value 0 = 1 ∧
    (counter_poll (fun _ => 1)
      (counter_poll (fun _ => 1) (counter_irq 0 armed_state))).ignore_irq 0 = 0 :=
  ⟨by decide,
   (((poll_transition (fun _ => 1) (counter_irq 0 armed_state) (by decide)).2 0).2
      (by decide)).2.2 (by decide) |>.2.1,
   (((poll_transition (fun _ => 1)
      (counter_poll (fun _ => 1) (counter_irq 0 armed_state)) (by decide)).2 0).2
      (by decide)).1 (by decide) |>.1⟩

/-- C17: the publish step.  One iteration of `handler` builds the frame from the
current configuration, passes exactly that one buffer to the callback, marks the
configuration valid and writes it to NVRAM, leaves the counters and `publish_period`
unchanged, and arms the publish timer with
`UMDK_COUNTER_VALUE_PERIOD_PER_SEC * publish_period` if `publish_period != 0`, leaving
the timer as it was otherwise. -/
theorem publish_step (p : Platform) (d : module_data_t) (s : State) :
    (handler_body p d s).emitted = build_frame p s.conf_counter d :: s.emitted ∧
    (handler_body p d s).nvram_writes =
      { s.conf_counter with is_valid := 1 } :: s.nvram_writes ∧
    (handler_body p d s).conf_counter.is_valid = 1 ∧
    (handler_body p d s).conf_counter.count_value = s.conf_counter.count_value ∧
    (handler_body p d s).conf_counter.publish_period = s.conf_counter.publish_period ∧
    (handler_body p d s).publishing_timer =
      (if s.conf_counter.publish_period ≠ 0 then
        some (p.period_per_sec * s.conf_counter.publish_period)
       else s.publishing_timer) ∧
    (handler_body p d s).btn_irq_enabled = true := by
  refine ⟨handler_body_emitted p d s, ?_, ?_, ?_, ?_, ?_, ?_⟩
  · simp only [handler_body, save_config]; split_ifs <;> rfl
  · rw [handler_body_conf]
  · rw [handler_body_conf]
  · rw [handler_body_conf]
  · simp only [handler_body, save_config]; split_ifs <;> rfl
  · simp only [handler_body, save_config]

/-! ## Counters: monotonicity and persistence -/

theorem counter_irq_count_le (i j : Chan) (s : State)
    (h : s.conf_counter.count_value i < 2 ^ 32 - 1) :
    s.conf_counter.count_value i ≤ (counter_irq j s).conf_counter.count_value i := by
  simp only [counter_irq]
  split_ifs with hs
  · exact Nat.le_refl _
  · by_cases e : i = j
    · subst e
      simp only [Function.update_same, u32]
      omega
    · simp only [Function.update_noteq e]
      exact Nat.le_refl _

theorem set_period_count (p : Platform) (n : Int) (s : State) :
    (set_period p n s).2.conf_counter.count_value = s.conf_counter.count_value := by
  simp only [set_period, save_config]
  split_ifs <;> rfl

/-- C18, as stated, fails at the top of the 32-bit range: with `count_value[0]` equal
to `0xFFFFFFFF` and channel 0 armed, an edge on channel 0 wraps the counter to 0. -/
theorem counter_monotonicity_counterexample :
    full_counter_state.ignore_irq 0 = 0 ∧
    full_counter_state.conf_counter.count_value 0 = 0xFFFFFFFF ∧
    (counter_irq 0 full_counter_state).conf_counter.count_value 0 = 0 := by
  decide

/-- C18, amended.  For every channel `i` whose counter is below `2^32 - 1`, each of
an edge on any channel, a poll pass, `set_period` with any argument, a POLL command and
a publish leaves `count_value[i]` greater than or equal to its value before. -/
theorem counter_monotonicity (p : Platform) (i : Chan) (s : State)
    (h : s.conf_counter.count_value i < 2 ^ 32 - 1) :
    (∀ j, s.conf_counter.count_value i ≤ (counter_irq j s).conf_counter.count_value i) ∧
    (∀ levels,
      s.conf_counter.count_value i ≤ (counter_poll levels s).conf_counter.count_value i) ∧
    (∀ n : Int,
      s.conf_counter.count_value i ≤ (set_period p n s).2.conf_counter.count_value i) ∧
    (∀ cmd reply : module_data_t, cmd.data 0 = UMDK_COUNTER_CMD_POLL →
      s.conf_counter.count_value i ≤
        (umdk_counter_cmd p cmd reply s).2.2.conf_counter.count_value i) ∧
    (∀ d, s.conf_counter.count_value i ≤ (handler_body p d s).conf_counter.count_value i) := by
  refine ⟨fun j => counter_irq_count_le i j s h, ?_, ?_, ?_, ?_⟩
  · intro levels
    rw [counter_poll_conf]
  · intro n
    rw [set_period_count]
  · intro cmd reply hop
    have h1 : ¬ cmd.data 0 = UMDK_COUNTER_CMD_SET_PERIOD := by rw [hop]; decide
    simp only [umdk_counter_cmd, if_neg h1, if_pos hop]
    split_ifs <;> exact Nat.le_refl _
  · intro d
    rw [handler_body_conf]

/-- Witness of C18 amended: counter 0 of the armed state, which is 0. -/
theorem counter_monotonicity_witness :
    armed_state.conf_counter.count_value 0 < 2 ^ 32 - 1 ∧
    armed_state.conf_counter.count_value 0 ≤
      (counter_irq 0 armed_state).conf_counter.count_value 0 :=
  ⟨by decide, (counter_monotonicity sample_platform 0 armed_state (by decide)).1 0⟩

theorem init_of_valid_image (p : Platform) (img : conf_counter_t) (s0 : State)
    (hv : img.is_valid = 1) :
    (umdk_counter_init p true (some img) s0).conf_counter = img := by
  have h : ¬ (img.is_valid = 0xFF ∨ img.is_valid = 0) := by rw [hv]; decide
  rw [init_of_image]
  simp only [if_neg h]

/-- C19: persistence round trip.  The image `save_config` writes is the current
configuration marked `is_valid = 1`; `umdk_counter_init`, when the stack is allocated
and the read returns an image with `is_valid == 1`, holds exactly that image afterwards
(no reset to defaults).  Hence a restart that reads back the image last written by a
publish, a RESET command or an accepted `set_period` finds the counters and the period
that operation left. -/
theorem persistence_round_trip (p : Platform) (img : conf_counter_t) (s0 : State)
    (hv : img.is_valid = 1) :
    (∀ t : State,
      (save_config t).nvram_writes = { t.conf_counter with is_valid := 1 } :: t.nvram_writes ∧
      (save_config t).conf_counter = { t.conf_counter with is_valid := 1 }) ∧
    (umdk_counter_init p true (some img) s0).conf_counter = img ∧
    (∀ (s : State) (d : module_data_t),
      (umdk_counter_init p true (last_image (handler_body p d s)) s0).conf_counter =
        (handler_body p d s).conf_counter ∧
      (handler_body p d s).conf_counter.count_value = s.conf_counter.count_value ∧
      (handler_body p d s).conf_counter.publish_period = s.conf_counter.publish_period) ∧
    (∀ (s : State) (cmd reply : module_data_t),
      cmd.data 0 = UMDK_COUNTER_CMD_RESET → 1 ≤ cmd.length →
      (umdk_counter_init p true (last_image (umdk_counter_cmd p cmd reply s).2.2)
        s0).conf_counter = (umdk_counter_cmd p cmd reply s).2.2.conf_counter ∧
      (umdk_counter_cmd p cmd reply s).2.2.conf_counter.count_value = (fun _ => 0) ∧
      (umdk_counter_cmd p cmd reply s).2.2.conf_counter.publish_period =
        s.conf_counter.publish_period) ∧
    (∀ (s : State) (q : Nat),
      1 ≤ q → q ≤ UMDK_COUNTER_PUBLISH_PERIOD_MAX →
      (umdk_counter_init p true (last_image (set_period p (q : Int) s).2) s0).conf_counter =
        (set_period p (q : Int) s).2.conf_counter ∧
      (set_period p (q : Int) s).2.conf_counter.count_value = s.conf_counter.count_value ∧
      (set_period p (q : Int) s).2.conf_counter.publish_period = q) := by
  refine ⟨fun t => ⟨rfl, rfl⟩, init_of_valid_image p img s0 hv, ?_, ?_, ?_⟩
  · intro s d
    have e : last_image (handler_body p d s) = some { s.conf_counter with is_valid := 1 } := by
      simp only [last_image, handler_body, save_config]
      split_ifs <;> rfl
    rw [e, init_of_valid_image p _ s0 rfl, handler_body_conf]
    exact ⟨rfl, rfl, rfl⟩
  · intro s cmd reply hop hlen
    have h0 : ¬ cmd.length < 1 := by omega
    have h1 : ¬ cmd.data 0 = UMDK_COUNTER_CMD_SET_PERIOD := by rw [hop]; decide
    have h2 : ¬ cmd.data 0 = UMDK_COUNTER_CMD_POLL := by rw [hop]; decide
    simp only [umdk_counter_cmd, if_neg h0, if_neg h1, if_neg h2, if_pos hop, save_config,
      last_image, List.head?_cons]
    rw [init_of_valid_image p _ s0 rfl]
    simp
  · intro s q hq1 hq2
    simp only [UMDK_COUNTER_PUBLISH_PERIOD_MAX] at hq2
    have hg : ¬ ((q : Int) = 0 ∨ (q : Int) > ((UMDK_COUNTER_PUBLISH_PERIOD_MAX : Nat) : Int)) := by
      simp only [UMDK_COUNTER_PUBLISH_PERIOD_MAX]; omega
    have e : ((q : Int) % 256).toNat = q := by omega
    simp only [set_period, if_neg hg, e, save_config, last_image, List.head?_cons]
    rw [init_of_valid_image p _ s0 rfl]
    simp

/-- Witness of C19: three edges' worth of counters are published, then the module is
restarted from the image written by the publish. -/
theorem persistence_round_trip_witness :
    (conf_with (counts4 3 1 0 0)).is_valid = 1 ∧
    (umdk_counter_init sample_platform true (some (conf_with (counts4 3 1 0 0)))
      boot_state).conf_counter = conf_with (counts4 3 1 0 0) ∧
    (umdk_counter_init sample_platform true
      (last_image (handler_body sample_platform (filled 0)
        (counter_irq 1 (counter_irq 0 armed_state))))
      boot_state).conf_counter.count_value 0 = 1 :=
  ⟨rfl,
   (persistence_round_trip sample_platform (conf_with (counts4 3 1 0 0)) boot_state rfl).2.1,
   by
    rw [((persistence_round_trip sample_platform (conf_with (counts4 3 1 0 0)) boot_state
      rfl).2.2.1 (counter_irq 1 (counter_irq 0 armed_state)) (filled 0)).1]
    decide⟩

/-! ## Pin readings wider than a byte -/

/-- A settling channel `i` whose pin reading is nonzero but zero in its low 8 bits is
never armed again: the stored level stays 0 and never equals the reading.  Channel `j`,
settling and read low, keeps the wakeup scheduled so that every poll cycle runs. -/
theorem high_reading_truncated_to_zero (i j : Chan) (levels : Chan → Nat) (t : State)
    (hr : levels i ≠ 0) (hr8 : u8 (levels i) = 0) (hj : levels j = 0)
    (h : t.ignore_irq i ≠ 0 ∧ t.last_value i = 0 ∧ t.ignore_irq j ≠ 0 ∧
      t.last_value j = 0 ∧ t.rtc_wakeup = true) :
    (poll_cycle levels t).ignore_irq i = t.ignore_irq i ∧
    (poll_cycle levels t).last_value i = 0 ∧
    (poll_cycle levels t).ignore_irq j = t.ignore_irq j ∧
    (poll_cycle levels t).last_value j = 0 ∧
    (poll_cycle levels t).rtc_wakeup = true := by
  obtain ⟨h1, h2, h3, h4, h5⟩ := h
  have hf := counter_poll_fields levels t
  have hc : poll_cycle levels t = counter_poll levels t := by
    simp [poll_cycle, h5]
  rw [hc, hf.1, hf.2.1, poll_loop_ignore_irq, poll_loop_last_value, poll_loop_ignore_irq,
    poll_loop_last_value, h2, h4, hj]
  refine ⟨?_, ?_, ?_, ?_, ?_⟩
  · rw [if_neg (by tauto)]
  · rw [if_pos ⟨h1, hr⟩, hr8]
  · rw [if_neg (by tauto)]
  · rw [if_neg (by tauto)]
  · exact (counter_poll_rtc_wakeup levels t).2 ⟨h5, j, h3, by rw [hj, h4], hj⟩

theorem high_reading_truncated_iterate (i j : Chan) (levels : Chan → Nat)
    (hr : levels i ≠ 0) (hr8 : u8 (levels i) = 0) (hj : levels j = 0) (n : Nat) :
    ∀ t : State,
      (t.ignore_irq i ≠ 0 ∧ t.last_value i = 0 ∧ t.ignore_irq j ≠ 0 ∧
        t.last_value j = 0 ∧ t.rtc_wakeup = true) →
      ((poll_cycle levels)^[n] t).ignore_irq i = t.ignore_irq i ∧
      ((poll_cycle levels)^[n] t).rtc_wakeup = true := by
  induction n with
  | zero => intro t h; exact ⟨rfl, h.2.2.2.2⟩
  | succ n ih =>
    intro t h
    have hs := high_reading_truncated_to_zero i j levels t hr hr8 hj h
    have hn := ih (poll_cycle levels t)
      ⟨by rw [hs.1]; exact h.1, hs.2.1, by rw [hs.2.2.1]; exact h.2.2.1, hs.2.2.2.1,
        hs.2.2.2.2⟩
    rw [Function.iterate_succ_apply]
    exact ⟨hn.1.trans hs.1, hn.2⟩

/-- C20: level comparison under non-normalised pin reads fails.  Channels 0 and 1 are
settling; channel 1 is read low at every sample, which keeps the wakeup scheduled, and
channel 0 is read as 256 (nonzero, hence high) at every sample.  The byte stored in
`last_value[0]` is `256 mod 256 = 0`, which never equals the reading, so after any
number of poll cycles channel 0 is still settling, whereas with the reading 1 it is
armed again after two poll cycles. -/
theorem nonnormalised_high_never_rearms (n : Nat) :
    two_settling_state.ignore_irq 0 = 1 ∧
    ((poll_cycle (counts4 256 0 1 1))^[n] two_settling_state).ignore_irq 0 = 1 ∧
    ((poll_cycle (counts4 256 0 1 1))^[n] two_settling_state).rtc_wakeup = true ∧
    (poll_cycle (counts4 256 0 1 1) two_settling_state).last_value 0 = 0 ∧
    ((poll_cycle (counts4 1 0 1 1))^[2] two_settling_state).ignore_irq 0 = 0 := by
  have h := high_reading_truncated_iterate 0 1 (counts4 256 0 1 1) (by decide) (by decide)
    (by decide) n two_settling_state (by decide)
  have e : two_settling_state.ignore_irq 0 = 1 := by decide
  exact ⟨e, h.1.trans e, h.2, by decide, by decide⟩

end UmdkCounter
